import Mathlib

/-!
# Verification of the polygon styling / label synchronization core

Shallow embedding of the feature-styling and label-synchronization logic of
the two map front-ends (`src/Mapbox/src/components/MapboxMap.tsx` and
`src/Leaflet/src/components/LeafletMap.tsx`), together with proofs settling
the frozen claims about that code.

Modelling conventions:
* JavaScript numbers are modelled as `ℚ` (exact rationals); every arithmetic
  operation the claims touch (`+`, `/`, `Math.floor`, comparisons) is exact
  on the inputs involved.
* GeoJSON coordinates are `[longitude, latitude]` pairs, modelled as `ℚ × ℚ`.
* A feature's `properties` bag is modelled by the six reserved styling keys
  the core reads and writes (`fillColor`, `fillOpacity`, `fillRgb`,
  `strokeColor`, `strokeWidth`, `labelText`), each `Option`-valued because a
  JS property may be absent (`undefined`).  "Byte-for-byte property equality"
  on the reserved keys is equality of this record.
* JS truthiness is modelled explicitly: a string is truthy iff non-empty, a
  number is truthy iff non-zero, an absent (`undefined`) value is falsy.
* `Math.atan2(dy,dx) * 180 / Math.PI` (the vertex display angle) is a
  transcendental real computation; it is abstracted as an explicit function
  parameter `angleOf : ℚ → ℚ → ℚ` (taking `dy` then `dx`, like `atan2`).
  No claim depends on the numeric value of an angle, and all theorems hold
  for every choice of `angleOf`.
-/

/-- A GeoJSON coordinate pair `[lng, lat]`. -/
abbrev Coord : Type := ℚ × ℚ

/-- GeoJSON geometry, as consumed by the synchronization core
(`Point | MultiPoint | LineString | MultiLineString | Polygon | MultiPolygon |
GeometryCollection`, the last one recursive). -/
inductive Geometry : Type where
  | point (c : Coord)
  | multiPoint (cs : List Coord)
  | lineString (cs : List Coord)
  | multiLineString (ls : List (List Coord))
  | polygon (rings : List (List Coord))
  | multiPolygon (polys : List (List (List Coord)))
  | geometryCollection (gs : List Geometry)
deriving Repr

/-- The reserved styling keys of a feature's `properties` bag.  `none`
models an absent (`undefined`) JS property. -/
structure Props : Type where
  fillColor : Option String := none
  fillOpacity : Option ℚ := none
  fillRgb : Option String := none
  strokeColor : Option String := none
  strokeWidth : Option ℚ := none
  labelText : Option String := none
deriving Repr, DecidableEq

/-- One GeoJSON feature: stable `id`, optional geometry (the code checks
`!feature.geometry`), and the reserved properties. -/
structure Feature : Type where
  id : String
  geometry : Option Geometry := none
  properties : Props := {}
deriving Repr

/-- A GeoJSON FeatureCollection: an ordered list of features. -/
structure FeatureCollection : Type where
  features : List Feature
deriving Repr

/-- JS truthiness of an optional string: present and non-empty. -/
def truthyStr (o : Option String) : Bool :=
  match o with
  | some s => s ≠ ""
  | none => false

/-- JS truthiness of an optional number: present and non-zero. -/
def truthyNum (o : Option ℚ) : Bool :=
  match o with
  | some q => q ≠ 0
  | none => false

/-- `f.geometry && (f.geometry.type === 'Polygon' || f.geometry.type ===
'MultiPolygon')` — the polygon-typed test used by all the layer filters. -/
def isPolyFeature (f : Feature) : Bool :=
  match f.geometry with
  | some (Geometry.polygon _) => true
  | some (Geometry.multiPolygon _) => true
  | _ => false

/-! ## JS string and number helpers

Faithful models of the JavaScript primitives the styling code relies on:
`String.prototype.replace('#','')` (first occurrence only), `substring`,
`parseInt(s, 16)`, the `||` fallback on numbers, and `Number.prototype.toFixed(6)`.
-/

/-- Remove the first occurrence of a character from a character list —
`'…'.replace('#','')` with a string pattern replaces only the first match. -/
def removeFirstChar (target : Char) : List Char → List Char
  | [] => []
  | c :: rest => if c = target then rest else c :: removeFirstChar target rest

/-- `s.substring(a, b)` for `a ≤ b`: characters from index `a` (inclusive) to
`b` (exclusive), clamped to the string length. -/
def jsSubstring (s : String) (a b : Nat) : String :=
  (((s.toList).drop a).take (b - a)).asString

/-- Hex digit test, as accepted by `parseInt(·, 16)`. -/
def isHexDigit (c : Char) : Bool :=
  c.isDigit || ('a' ≤ c && c ≤ 'f') || ('A' ≤ c && c ≤ 'F')

/-- Numeric value of a hex digit. -/
def hexVal (c : Char) : ℤ :=
  if c.isDigit then (c.toNat : ℤ) - ('0'.toNat : ℤ)
  else if 'a' ≤ c && c ≤ 'f' then (c.toNat : ℤ) - ('a'.toNat : ℤ) + 10
  else (c.toNat : ℤ) - ('A'.toNat : ℤ) + 10

/-- `parseInt(s, 16)`: skip leading whitespace, optional sign, optional
`0x`/`0X` prefix, then the longest prefix of hex digits; `none` models `NaN`
(no digits at all). -/
def jsParseIntHex (s : String) : Option ℤ :=
  let cs := (s.toList).dropWhile (fun c => c = ' ' || c = '\t' || c = '\n' || c = '\r')
  let signAndRest : ℤ × List Char :=
    match cs with
    | '-' :: rest => (-1, rest)
    | '+' :: rest => (1, rest)
    | other => (1, other)
  let afterPrefix : List Char :=
    match signAndRest.2 with
    | '0' :: 'x' :: rest => rest
    | '0' :: 'X' :: rest => rest
    | other => other
  let digits := afterPrefix.takeWhile isHexDigit
  if digits.isEmpty then none
  else some (signAndRest.1 * digits.foldl (fun acc c => 16 * acc + hexVal c) 0)

/-- `v || dflt` on a parsed JS number: `NaN` (here `none`) and `0` are falsy
and select the fallback. -/
def jsOrElse (v : Option ℤ) (dflt : ℤ) : ℤ :=
  match v with
  | none => dflt
  | some n => if n = 0 then dflt else n

/-- The inline hex → decimal-RGB conversion used verbatim by the
`draw.create` handler, `getDrawData`, `changeSelectedFill` and
`applyFillToAll`:

```js
const hex = (color || '#ffffff').replace('#','');
const r = parseInt(hex.substring(0,2),16) || 255;
const g = parseInt(hex.substring(2,4),16) || 255;
const b = parseInt(hex.substring(4,6),16) || 255;
`${r},${g},${b}`
``` -/
def hexToRgbString (color : String) : String :=
  let base := if color = "" then "#ffffff" else color
  let hex := (removeFirstChar '#' (base.toList)).asString
  let r := jsOrElse (jsParseIntHex (jsSubstring hex 0 2)) 255
  let g := jsOrElse (jsParseIntHex (jsSubstring hex 2 4)) 255
  let b := jsOrElse (jsParseIntHex (jsSubstring hex 4 6)) 255
  toString r ++ "," ++ toString g ++ "," ++ toString b

/-- `(f.properties.fillColor || '#ffffff')`: truthy-coalescing an optional
string against the white default. -/
def jsOrHashWhite (o : Option String) : String :=
  match o with
  | some c => if c = "" then "#ffffff" else c
  | none => "#ffffff"

/-- Left-pad a string with zeros to length `k`. -/
def padZeros (k : Nat) (s : String) : String :=
  (List.replicate (k - s.length) '0').asString ++ s

/-- `x.toFixed(6)` on an (idealized) JS number: per ECMA-262, a leading `-`
when `x < 0`, then the decimal rendering of the integer `n` closest to
`|x| * 10^6` (ties pick the larger `n`), with exactly six fraction digits. -/
def jsToFixed6 (q : ℚ) : String :=
  let sign := if q < 0 then "-" else ""
  let n : ℤ := ⌊|q| * 1000000 + 1/2⌋
  let ip := n / 1000000
  let fp := n % 1000000
  sign ++ toString ip ++ "." ++ padZeros 6 (toString fp.toNat)

/-! ## Geometry utilities (`MapboxMap.tsx`, bottom helpers) -/

namespace Mapbox

/-- `calculatePolygonCentroid` (Mapbox version): arithmetic mean of the outer
ring's points (first ring only, holes ignored), `none` on an empty or missing
ring.  Every typed point has two coordinates, so the source's
`point.length >= 2` guard always passes and `pointCount` equals the ring
length. -/
def calculatePolygonCentroid (coordinates : List (List Coord)) : Option Coord :=
  match coordinates with
  | [] => none
  | ring :: _ =>
    if ring.isEmpty then none
    else
      let total := ring.foldl (fun acc p => (acc.1 + p.1, acc.2 + p.2)) ((0 : ℚ), (0 : ℚ))
      some (total.1 / (ring.length : ℚ), total.2 / (ring.length : ℚ))

end Mapbox

namespace Leaflet

/-- `calculatePolygonCentroid` (Leaflet version): takes the ring directly;
same arithmetic mean over all ring points, `none` for an empty ring. -/
def calculatePolygonCentroid (ring : List Coord) : Option Coord :=
  if ring.isEmpty then none
  else
    let total := ring.foldl (fun acc p => (acc.1 + p.1, acc.2 + p.2)) ((0 : ℚ), (0 : ℚ))
    some (total.1 / (ring.length : ℚ), total.2 / (ring.length : ℚ))

end Leaflet

/-! ## Vertex/label sampler (`MapboxMap.tsx`, bottom helpers)

`extractVertexEntriesFromFeatureCollection`, `collectVertexEntriesFromGeometry`,
`computeVertexAngle`, `buildPointFeaturesFromVertices`, and the grid sampler
`sampleByGrid` nested in `upsertCoordinateLabels`.
-/

/-- A vertex entry `{ coord: [lng, lat]; angle: degrees }`. -/
structure VertEntry : Type where
  coord : Coord
  angle : ℚ
deriving Repr, DecidableEq

/-- `computeVertexAngle`: prefer the vector toward `next`; else the vector
from `prev`; else `dx = dy = 0`.  `angleOf dy dx` abstracts
`Math.atan2(dy, dx) * 180 / Math.PI` (see the header). -/
def computeVertexAngle (angleOf : ℚ → ℚ → ℚ) (curr : Coord)
    (prev next : Option Coord) : ℚ :=
  match next with
  | some n => angleOf (n.2 - curr.2) (n.1 - curr.1)
  | none =>
    match prev with
    | some p => angleOf (curr.2 - p.2) (curr.1 - p.1)
    | none => angleOf 0 0

/-- Vertex entries of a `LineString`/`MultiPoint` coordinate list:
`prev = coords[i-1]` when `i > 0`, `next = coords[i+1]` when in range. -/
def lineVertexEntries (angleOf : ℚ → ℚ → ℚ) (coords : List Coord) : List VertEntry :=
  coords.enum.map (fun ic =>
    { coord := ic.2,
      angle := computeVertexAngle angleOf ic.2
        (if ic.1 > 0 then coords.get? (ic.1 - 1) else none)
        (coords.get? (ic.1 + 1)) })

/-- Vertex entries of a polygon's outer ring:
`prev = i > 0 ? ring[i-1] : ring[ring.length-2] ?? ring[ring.length-1]`
(a JS index of `-1` when the ring has one point is `undefined`, so the `??`
fallback fires), `next = ring[(i+1) % ring.length]`. -/
def ringVertexEntries (angleOf : ℚ → ℚ → ℚ) (ring : List Coord) : List VertEntry :=
  ring.enum.map (fun ic =>
    { coord := ic.2,
      angle := computeVertexAngle angleOf ic.2
        (if ic.1 > 0 then ring.get? (ic.1 - 1)
         else if ring.length ≥ 2 then ring.get? (ring.length - 2)
         else ring.get? (ring.length - 1))
        (ring.get? ((ic.1 + 1) % ring.length)) })

mutual

/-- `collectVertexEntriesFromGeometry`: a `Point` contributes one entry with
angle `0`; lines and multipoints contribute every coordinate; polygons and
multipolygons contribute only their outer rings (holes excluded);
`GeometryCollection` recurses. -/
def collectVertexEntriesFromGeometry (angleOf : ℚ → ℚ → ℚ) :
    Geometry → List VertEntry
  | Geometry.point c => [{ coord := c, angle := 0 }]
  | Geometry.multiPoint cs => lineVertexEntries angleOf cs
  | Geometry.lineString cs => lineVertexEntries angleOf cs
  | Geometry.multiLineString ls => ls.foldr (fun l acc => lineVertexEntries angleOf l ++ acc) []
  | Geometry.polygon rings =>
    match rings with
    | [] => []
    | r :: _ => ringVertexEntries angleOf r
  | Geometry.multiPolygon polys =>
    polys.foldr (fun p acc =>
      (match p with
       | [] => []
       | r :: _ => ringVertexEntries angleOf r) ++ acc) []
  | Geometry.geometryCollection gs => collectVertexEntriesFromGeometryList angleOf gs

/-- Entries of a list of geometries, in order (the recursive
`GeometryCollection` case of the source switch). -/
def collectVertexEntriesFromGeometryList (angleOf : ℚ → ℚ → ℚ) :
    List Geometry → List VertEntry
  | [] => []
  | g :: rest =>
    collectVertexEntriesFromGeometry angleOf g ++
      collectVertexEntriesFromGeometryList angleOf rest

end

/-- The dedup identity key
`` `${e.coord[0].toFixed(6)}|${e.coord[1].toFixed(6)}` ``:
coordinates rounded to six decimal digits, rendered as the actual key
string. -/
def vertKey (c : Coord) : String :=
  jsToFixed6 c.1 ++ "|" ++ jsToFixed6 c.2

/-- Generic first-occurrence-wins dedup keyed by `key`, threading the set of
already-seen keys (the JS `Set`/`Map` pattern used by both the vertex dedup
and `sampleByGrid`; JS `Map` iteration preserves insertion order). -/
def dedupByKey {α κ : Type} [DecidableEq κ] (key : α → κ) :
    List α → List κ → List α
  | [], _ => []
  | a :: rest, seen =>
    if key a ∈ seen then dedupByKey key rest seen
    else a :: dedupByKey key rest (key a :: seen)

/-- The raw (pre-dedup) entry list of a feature collection: features without
geometry are skipped, others contribute in order. -/
def rawVertexEntries (angleOf : ℚ → ℚ → ℚ) (collection : FeatureCollection) :
    List VertEntry :=
  collection.features.foldr (fun f acc =>
    (match f.geometry with
     | none => []
     | some g => collectVertexEntriesFromGeometry angleOf g) ++ acc) []

/-- `extractVertexEntriesFromFeatureCollection`: collect all entries, then
deduplicate by the 6-decimal-digit rounded-coordinate key, first occurrence
wins. -/
def extractVertexEntriesFromFeatureCollection (angleOf : ℚ → ℚ → ℚ)
    (collection : FeatureCollection) : List VertEntry :=
  dedupByKey (fun e => vertKey e.coord) (rawVertexEntries angleOf collection) []

/-- The spatial grid cell key of `sampleByGrid`:
`` `${Math.floor(lng/cellDeg)}|${Math.floor(lat/cellDeg)}` ``.  The template
string encodes the integer pair injectively (decimal digits with a `|`
separator), so the key is modelled as the pair itself. -/
def gridKey (cellDeg : ℚ) (e : VertEntry) : ℤ × ℤ :=
  (⌊e.coord.1 / cellDeg⌋, ⌊e.coord.2 / cellDeg⌋)

/-- `sampleByGrid`: bucket entries into grid cells of `cellDeg` degrees and
keep only the first entry per cell, in insertion order. -/
def sampleByGrid (entries : List VertEntry) (cellDeg : ℚ) : List VertEntry :=
  dedupByKey (gridKey cellDeg) entries []

/-- One zoom tier of the coordinate-label overlay. -/
structure Tier : Type where
  id : Nat
  minzoom : ℚ
  cellDeg : ℚ
  textSizeRange : ℚ × ℚ
deriving Repr, DecidableEq

/-- The four configured tiers of `upsertCoordinateLabels`. -/
def tiers : List Tier :=
  [ { id := 0, minzoom := 0, cellDeg := 6/100, textSizeRange := (8, 10) },
    { id := 1, minzoom := 8, cellDeg := 2/100, textSizeRange := (9, 12) },
    { id := 2, minzoom := 12, cellDeg := 5/1000, textSizeRange := (11, 14) },
    { id := 3, minzoom := 14, cellDeg := 15/10000, textSizeRange := (13, 16) } ]

/-! ## Draw store and map engine state

The MapboxDraw plugin's in-memory store is a list of features (unique ids in
practice) plus the current selection.  The map engine's layer/source registry
is modelled as insertion-ordered association lists; `moveLayer` only affects
z-order, which no claim concerns, so layer state is presence only.
-/

/-- The draw plugin's store: features plus the currently selected ids. -/
structure DrawState : Type where
  features : List Feature
  selected : List String
deriving Repr

/-- A GeoJSON source's data, as registered with the map engine. -/
inductive SourceData : Type where
  /-- A plain feature collection (fill / stroke overlay sources). -/
  | collection (features : List Feature)
  /-- A coordinate-label tier source: point features built by
  `buildPointFeaturesFromVertices` (label text, angle, position). -/
  | labelPoints (pts : List (String × String × ℚ × Coord))
  /-- The text-label source: one centroid point per labelled polygon
  (`id`, `labelText`, `originalId`, position). -/
  | textPoints (pts : List (String × Option String × String × Coord))
deriving Repr

/-- Bounds accumulated by `mapboxgl.LngLatBounds` (`sw`/`ne` corners;
longitude wrapping is not exercised by any claim). -/
structure Bounds : Type where
  sw : Coord
  ne : Coord
deriving Repr, DecidableEq

/-- The map engine's observable state: registered sources and layers, and the
bounds of the last `fitBounds` call (if any). -/
structure MapState : Type where
  sources : List (String × SourceData)
  layers : List String
  lastFit : Option Bounds
deriving Repr

/-- `map.getSource(id)` (first registration wins; the code never registers a
duplicate id because it removes before adding). -/
def getSource (m : MapState) (sid : String) : Option SourceData :=
  (m.sources.find? (fun p => p.1 = sid)).map (fun p => p.2)

/-- `map.removeSource(id)` guarded by `map.getSource(id)` — removing an
absent source is a no-op either way. -/
def removeSource (m : MapState) (sid : String) : MapState :=
  { m with sources := m.sources.filter (fun p => p.1 ≠ sid) }

/-- `map.addSource(id, data)`. -/
def addSource (m : MapState) (sid : String) (d : SourceData) : MapState :=
  { m with sources := m.sources ++ [(sid, d)] }

/-- `map.removeLayer(id)` guarded by `map.getLayer(id)`. -/
def removeLayer (m : MapState) (lid : String) : MapState :=
  { m with layers := m.layers.filter (fun l => l ≠ lid) }

/-- `map.addLayer(spec)` — only the layer's presence is tracked (paint and
layout rules read the source's feature properties). -/
def addLayer (m : MapState) (lid : String) : MapState :=
  { m with layers := m.layers ++ [lid] }

/-! ## Bounds fitting (`fitToCollection` and its helpers) -/

/-- `bounds.extend(coordinate)`. -/
def extendBounds (b : Bounds) (c : Coord) : Bounds :=
  { sw := (min b.sw.1 c.1, min b.sw.2 c.2), ne := (max b.ne.1 c.1, max b.ne.2 c.2) }

mutual

/-- `extendBoundsWithGeometry`: extend with every coordinate of the geometry,
recursing through `GeometryCollection`; unknown types are ignored. -/
def extendBoundsWithGeometry (b : Bounds) : Geometry → Bounds
  | Geometry.point c => extendBounds b c
  | Geometry.multiPoint cs => cs.foldl extendBounds b
  | Geometry.lineString cs => cs.foldl extendBounds b
  | Geometry.multiLineString ls => ls.foldl (fun b l => l.foldl extendBounds b) b
  | Geometry.polygon rings => rings.foldl (fun b l => l.foldl extendBounds b) b
  | Geometry.multiPolygon polys =>
    polys.foldl (fun b p => p.foldl (fun b l => l.foldl extendBounds b) b) b
  | Geometry.geometryCollection gs => extendBoundsWithGeometryList b gs

/-- Folding `extendBoundsWithGeometry` over the children of a
`GeometryCollection`. -/
def extendBoundsWithGeometryList (b : Bounds) : List Geometry → Bounds
  | [] => b
  | g :: rest => extendBoundsWithGeometryList (extendBoundsWithGeometry b g) rest

end

/-- `extendBoundsWithFeature`: skip features without geometry. -/
def extendBoundsWithFeature (b : Bounds) (f : Feature) : Bounds :=
  match f.geometry with
  | none => b
  | some g => extendBoundsWithGeometry b g

mutual

/-- `getCoordinateFromGeometry` / `findCoordinate`: depth-first first
coordinate of a geometry (`findCoordinate` walks the nested coordinate
arrays and returns the first `[number, number]` pair found). -/
def getCoordinateFromGeometry : Geometry → Option Coord
  | Geometry.point c => some c
  | Geometry.multiPoint cs => cs.head?
  | Geometry.lineString cs => cs.head?
  | Geometry.multiLineString ls => ls.findSome? (fun l => l.head?)
  | Geometry.polygon rings => rings.findSome? (fun r => r.head?)
  | Geometry.multiPolygon polys =>
    polys.findSome? (fun p => p.findSome? (fun r => r.head?))
  | Geometry.geometryCollection gs => getCoordinateFromGeometryList gs

/-- First coordinate among a `GeometryCollection`'s children. -/
def getCoordinateFromGeometryList : List Geometry → Option Coord
  | [] => none
  | g :: rest =>
    match getCoordinateFromGeometry g with
    | some c => some c
    | none => getCoordinateFromGeometryList rest

end

/-- `getFirstCoordinate`: `null` for a feature without geometry. -/
def getFirstCoordinate (f : Feature) : Option Coord :=
  match f.geometry with
  | none => none
  | some g => getCoordinateFromGeometry g

/-- The bounds `fitToCollection` computes: seeded with the first feature's
first coordinate, then extended with every feature; `none` when the
collection is empty or its first feature yields no coordinate (the source's
early returns). -/
def boundsOfCollection (collection : FeatureCollection) : Option Bounds :=
  match collection.features with
  | [] => none
  | f0 :: _ =>
    match getFirstCoordinate f0 with
    | none => none
    | some c0 =>
      some (collection.features.foldl extendBoundsWithFeature { sw := c0, ne := c0 })

/-- `fitToCollection(map, collection)`: fit the view to the accumulated
bounds, or do nothing when there is nothing to fit. -/
def fitToCollection (m : MapState) (collection : FeatureCollection) : MapState :=
  match boundsOfCollection collection with
  | none => m
  | some b => { m with lastFit := some b }

/-! ## Coordinate-label overlay (`upsertCoordinateLabels`) -/

/-- `buildPointFeaturesFromVertices`: one point feature per retained vertex,
id `vertex-label-${idx}`, label `` `${lat.toFixed(6)}, ${lng.toFixed(6)}` ``
(latitude first), carrying the display angle. -/
def buildPointFeaturesFromVertices (entries : List VertEntry) :
    List (String × String × ℚ × Coord) :=
  entries.enum.map (fun ie =>
    ("vertex-label-" ++ toString ie.1,
     jsToFixed6 ie.2.coord.2 ++ ", " ++ jsToFixed6 ie.2.coord.1,
     ie.2.angle,
     ie.2.coord))

/-- Source id of coordinate-label tier `i`. -/
def coordSourceId (i : Nat) : String := "coord-labels-source-" ++ toString i

/-- Layer id of coordinate-label tier `i`. -/
def coordLayerId (i : Nat) : String := "coord-labels-layer-" ++ toString i

/-- Tear-down step of `upsertCoordinateLabels`: remove the tier layer for
one index. -/
def removeCoordLayerStep (m : MapState) (i : Nat) : MapState :=
  removeLayer m (coordLayerId i)

/-- Tear-down step of `upsertCoordinateLabels`: remove the tier source for
one index. -/
def removeCoordSourceStep (m : MapState) (i : Nat) : MapState :=
  removeSource m (coordSourceId i)

/-- Re-add step of `upsertCoordinateLabels` for one tier: sample the entries
on the tier's grid and, when the sample is non-empty, add the tier's source
of label points and its symbol layer. -/
def addCoordTierStep (entries : List VertEntry) (m : MapState) (tier : Tier) :
    MapState :=
  let sampled := sampleByGrid entries tier.cellDeg
  if sampled.isEmpty then m
  else
    addLayer
      (addSource m (coordSourceId tier.id)
        (SourceData.labelPoints (buildPointFeaturesFromVertices sampled)))
      (coordLayerId tier.id)

/-- `upsertCoordinateLabels(map, collection)`: extract and dedup the vertex
entries, tear down all four tier layers/sources, and — if any entry remains —
re-add, per tier, a source of grid-sampled label points plus its symbol
layer (skipping tiers whose sample is empty).  The closing `moveLayer`
z-order fixups only reorder layers and are not modelled (no claim concerns
z-order). -/
def upsertCoordinateLabels (angleOf : ℚ → ℚ → ℚ) (m : MapState)
    (collection : FeatureCollection) : MapState :=
  let entries := extractVertexEntriesFromFeatureCollection angleOf collection
  let m := [0, 1, 2, 3].foldl removeCoordLayerStep m
  let m := [0, 1, 2, 3].foldl removeCoordSourceStep m
  if entries.isEmpty then m
  else tiers.foldl (addCoordTierStep entries) m

/-! ## Layer synchronizer (`updateCustomColoredLayer`) -/

/-- The fill overlay's source id. -/
def fillSourceId : String := "custom-colored-polygons"

/-- The fill overlay's layer id. -/
def fillLayerId : String := "custom-colored-polygons-layer"

/-- The stroke overlay's source id. -/
def strokeSourceId : String := "custom-stroked-polygons"

/-- The stroke overlay's layer id. -/
def strokeLayerId : String := "custom-stroked-polygons-layer"

/-- The text overlay's source id. -/
def textSourceId : String := "custom-text-labels"

/-- The text overlay's layer id. -/
def textLayerId : String := "custom-text-labels-layer"

/-- The filter of the fill overlay:
`f?.properties?.fillColor && f.geometry && (Polygon || MultiPolygon)`. -/
def hasCustomFill (f : Feature) : Bool :=
  truthyStr f.properties.fillColor && isPolyFeature f

/-- The filter of the stroke overlay:
`(f?.properties?.strokeColor || f?.properties?.strokeWidth) && polygon`. -/
def hasCustomStroke (f : Feature) : Bool :=
  (truthyStr f.properties.strokeColor || truthyNum f.properties.strokeWidth) &&
    isPolyFeature f

/-- The filter of the text overlay: `f?.properties?.labelText && polygon`. -/
def hasLabelText (f : Feature) : Bool :=
  truthyStr f.properties.labelText && isPolyFeature f

/-- The centroid point the text overlay places for one labelled polygon
(`null` when no centroid can be computed — filtered out by
`.filter(Boolean)`). -/
def textPointOfFeature (f : Feature) : Option (String × Option String × String × Coord) :=
  let centroid : Option Coord :=
    match f.geometry with
    | some (Geometry.polygon rings) => Mapbox.calculatePolygonCentroid rings
    | some (Geometry.multiPolygon polys) =>
      match polys with
      | [] => none
      | firstPolygon :: _ => Mapbox.calculatePolygonCentroid firstPolygon
    | _ => none
  centroid.map (fun c => ("text-" ++ f.id, f.properties.labelText, f.id, c))

/-- Fill stage of `updateCustomColoredLayer`: remove the fill layer and
source, then re-add them only when the colored subset is non-empty. -/
def updateFillStage (features : List Feature) (m : MapState) : MapState :=
  let coloredFeatures := features.filter hasCustomFill
  let m := removeSource (removeLayer m fillLayerId) fillSourceId
  if coloredFeatures.isEmpty then m
  else addLayer (addSource m fillSourceId (SourceData.collection coloredFeatures)) fillLayerId

/-- Stroke stage of `updateCustomColoredLayer`: same tear-down/re-add for
the stroked subset. -/
def updateStrokeStage (features : List Feature) (m : MapState) : MapState :=
  let strokedFeatures := features.filter hasCustomStroke
  let m := removeSource (removeLayer m strokeLayerId) strokeSourceId
  if strokedFeatures.isEmpty then m
  else addLayer (addSource m strokeSourceId (SourceData.collection strokedFeatures)) strokeLayerId

/-- Text stage of `updateCustomColoredLayer`: tear down the text layer and
source and re-add them from the labelled polygons' centroid points when any
exist. -/
def updateTextStage (features : List Feature) (m : MapState) : MapState :=
  let textFeatures := (features.filter hasLabelText).filterMap textPointOfFeature
  let m := removeSource (removeLayer m textLayerId) textSourceId
  if textFeatures.isEmpty then m
  else addLayer (addSource m textSourceId (SourceData.textPoints textFeatures)) textLayerId

/-- `updateCustomColoredLayer(map, features)`: the total synchronization
pass.  In source order: rebuild the fill overlay (remove layer+source, re-add
only if the colored subset is non-empty), rebuild the stroke overlay the same
way, upsert the coordinate labels, then rebuild the text overlay from
polygon centroids.  The final `moveLayer` call (text layer to top) only
affects z-order and is not modelled. -/
def updateCustomColoredLayer (angleOf : ℚ → ℚ → ℚ) (m : MapState)
    (features : List Feature) : MapState :=
  updateTextStage features
    (upsertCoordinateLabels angleOf
      (updateStrokeStage features (updateFillStage features m))
      { features := features })

/-! ## Imperative façade: export, import, fill mutators, create handler -/

/-- The combined state a façade command operates on: the draw store plus the
map engine state. -/
structure SyncState : Type where
  draw : DrawState
  map : MapState
deriving Repr

/-- The per-feature export fixup of `getDrawData`: when the feature has a
truthy `fillColor` and a falsy `fillRgb`, synthesize `fillRgb` from
`fillColor`; everything else is exported as-is. -/
def exportFix (f : Feature) : Feature :=
  if truthyStr f.properties.fillColor && !truthyStr f.properties.fillRgb then
    { f with properties :=
      { f.properties with
        fillRgb := some (hexToRgbString (jsOrHashWhite f.properties.fillColor)) } }
  else f

/-- `getDrawData()`: all drawn features, with the export fixup applied
(`draw.getAll()` returns fresh GeoJSON copies, so this is a pure map). -/
def getDrawData (l : List Feature) : FeatureCollection :=
  { features := l.map exportFix }

/-- `loadGeoJson(collection, options)` options bag. -/
structure LoadOpts : Type where
  fitBounds : Option Bool := none
deriving Repr, DecidableEq

/-- The guard `options?.fitBounds !== false`: only an explicit `false`
suppresses the fit. -/
def jsFitCond (opts : Option LoadOpts) : Bool :=
  match opts with
  | some o => o.fitBounds ≠ some false
  | none => true

/-- `loadGeoJson(collection, options)`: re-wrap every feature keeping its
properties (`processedCollection`), replace the draw store (`draw.set`),
conditionally fit the view, upsert coordinate labels, and run the overlay
synchronizer.  The JSON serialize/parse pair of the export/import
collaborators is the identity on feature collections and is not reified. -/
def loadGeoJson (angleOf : ℚ → ℚ → ℚ) (s : SyncState)
    (collection : FeatureCollection) (opts : Option LoadOpts) : SyncState :=
  let processed : FeatureCollection :=
    { features := collection.features.map (fun f => { f with properties := f.properties }) }
  let draw : DrawState := { features := processed.features, selected := [] }
  let m := if jsFitCond opts then fitToCollection s.map processed else s.map
  let m := upsertCoordinateLabels angleOf m processed
  let m := updateCustomColoredLayer angleOf m processed.features
  { draw := draw, map := m }

/-- The property mutation of `changeSelectedFill` / `applyFillToAll` on one
feature's bag: set `fillColor`, set `fillOpacity` only when the argument is a
number, and recompute `fillRgb` from the color. -/
def setFillProps (color : String) (opacity : Option ℚ) (p : Props) : Props :=
  let p := { p with fillColor := some color }
  let p :=
    match opacity with
    | some o => { p with fillOpacity := some o }
    | none => p
  { p with fillRgb := some (hexToRgbString color) }

/-- Process one selected id inside `changeSelectedFill`: look the feature up
(`draw.get`), skip when absent, otherwise set the fill properties
(`setFeatureProperty`) and force a visual refresh by `draw.delete(id)`
followed by `draw.add({...f, id})` — net effect: the feature is removed and
the updated copy appended. -/
def applyFillToId (color : String) (opacity : Option ℚ)
    (l : List Feature) (id : String) : List Feature :=
  match l.find? (fun f => f.id = id) with
  | none => l
  | some f =>
    (l.filter (fun g => g.id ≠ id)) ++
      [{ f with properties := setFillProps color opacity f.properties }]

/-- `changeSelectedFill(color, opacity)`: return untouched when nothing is
selected; otherwise update every selected feature, reselect the same ids
(`changeMode('simple_select', { featureIds: ids })`), and run the overlay
synchronizer on the resulting store. -/
def changeSelectedFill (angleOf : ℚ → ℚ → ℚ) (color : String)
    (opacity : Option ℚ) (s : SyncState) : SyncState :=
  let ids := s.draw.selected
  if ids.isEmpty then s
  else
    let fs := ids.foldl (applyFillToId color opacity) s.draw.features
    { draw := { features := fs, selected := ids },
      map := updateCustomColoredLayer angleOf s.map fs }

/-- One step of `applyFillToAll`'s loop over the polygon snapshot:
`draw.delete(f.id)` then `draw.add({...f, id: f.id})` with updated fill
properties. -/
def applyFillStep (color : String) (opacity : Option ℚ)
    (l : List Feature) (f : Feature) : List Feature :=
  (l.filter (fun g => g.id ≠ f.id)) ++
    [{ f with properties := setFillProps color opacity f.properties }]

/-- `applyFillToAll(color, opacity)`: snapshot the Polygon/MultiPolygon
features, update each one in the store (delete + re-add), and run the
overlay synchronizer; non-polygon features are skipped. -/
def applyFillToAll (angleOf : ℚ → ℚ → ℚ) (color : String)
    (opacity : Option ℚ) (s : SyncState) : SyncState :=
  let polygonFeatures := s.draw.features.filter isPolyFeature
  let fs := polygonFeatures.foldl (applyFillStep color opacity) s.draw.features
  { draw := { features := fs, selected := s.draw.selected },
    map := updateCustomColoredLayer angleOf s.map fs }

/-- The `draw.create` default handler: give a freshly drawn feature a white
semi-transparent default fill when the keys are absent (`fillColor`
defaulting to `#ffffff`, `fillOpacity` to `0.2`), and synthesize `fillRgb`
from `(fillColor || '#ffffff')` only when `fillRgb` is `undefined`. -/
def drawCreateDefaults (p : Props) : Props :=
  let p := if p.fillColor = none then { p with fillColor := some "#ffffff" } else p
  let p := if p.fillOpacity = none then { p with fillOpacity := some (1/5) } else p
  if p.fillRgb = none then
    { p with fillRgb := some (hexToRgbString (jsOrHashWhite p.fillColor)) }
  else p

/-! ## Specification-side definitions (from the claims' wording)

These follow the words of the claims being checked, to be compared with the
code-derived definitions above; they are used only in claim statements.
-/

/-- Claim C1's wording of the derived-RGB invariant: the hex-to-decimal RGB
decomposition of the color (each channel parsed from its two hex digits),
with a fallback of the full-white string when the hex input is malformed and
parsing fails. -/
def rgbSpecClaim (color : String) : String :=
  let hex := (removeFirstChar '#' (color.toList)).asString
  match jsParseIntHex (jsSubstring hex 0 2),
        jsParseIntHex (jsSubstring hex 2 4),
        jsParseIntHex (jsSubstring hex 4 6) with
  | some r, some g, some b => toString r ++ "," ++ toString g ++ "," ++ toString b
  | _, _, _ => "255,255,255"

/-- The amended wording of C1: per-channel decomposition where each channel
independently falls back to `255` when its two-hex-digit parse fails *or*
parses to zero (the JS `|| 255` treats a parsed `0` as falsy). -/
def rgbSpecAmended (color : String) : String :=
  let hex := (removeFirstChar '#' (color.toList)).asString
  let chan : Nat → Nat → ℤ := fun a b =>
    match jsParseIntHex (jsSubstring hex a b) with
    | none => 255
    | some v => if v = 0 then 255 else v
  toString (chan 0 2) ++ "," ++ toString (chan 2 4) ++ "," ++ toString (chan 4 6)

/-! # Claims -/

/-! ## C2 — centroid of the square ring -/

/-- C2 counterexample: on the square ring
`[[0,0],[0,2],[2,2],[2,0],[0,0]]` neither centroid implementation returns
`[1,1]` — the arithmetic mean runs over all five ring points, the repeated
closing vertex included, giving `[0.8, 0.8]`. -/
theorem claim2_centroid_counterexample :
    Mapbox.calculatePolygonCentroid [[(0, 0), (0, 2), (2, 2), (2, 0), (0, 0)]] ≠
      some ((1 : ℚ), (1 : ℚ)) ∧
    Leaflet.calculatePolygonCentroid [(0, 0), (0, 2), (2, 2), (2, 0), (0, 0)] ≠
      some ((1 : ℚ), (1 : ℚ)) := by
  constructor
  · norm_num [Mapbox.calculatePolygonCentroid]
  · norm_num [Leaflet.calculatePolygonCentroid]

/-- C2 (amended): for the square polygon ring
`[[0,0],[0,2],[2,2],[2,0],[0,0]]`, the centroid computation (arithmetic mean
of the outer ring's points, the repeated closing vertex included, holes
ignored) returns `[0.8, 0.8]` in both implementations. -/
theorem claim2_centroid_amended :
    Mapbox.calculatePolygonCentroid [[(0, 0), (0, 2), (2, 2), (2, 0), (0, 0)]] =
      some ((4/5 : ℚ), (4/5 : ℚ)) ∧
    Leaflet.calculatePolygonCentroid [(0, 0), (0, 2), (2, 2), (2, 0), (0, 0)] =
      some ((4/5 : ℚ), (4/5 : ℚ)) := by
  constructor
  · norm_num [Mapbox.calculatePolygonCentroid]
  · norm_num [Leaflet.calculatePolygonCentroid]

/-! ## C7 — no-op on empty selection -/

/-- C7: calling `changeSelectedFill` with zero selected features returns
before any feature mutation or layer update — the whole state (feature
collection and map overlays) is untouched. -/
theorem claim7_empty_selection_noop (angleOf : ℚ → ℚ → ℚ) (color : String)
    (opacity : Option ℚ) (s : SyncState) (h : s.draw.selected = []) :
    changeSelectedFill angleOf color opacity s = s := by
  simp [changeSelectedFill, h]

/-- A sample polygon feature used by concrete witnesses. -/
def sampleFeature : Feature :=
  { id := "a",
    geometry := some (Geometry.polygon [[(0, 0), (0, 1), (1, 1), (0, 0)]]),
    properties := { fillColor := some "#ff0000" } }

/-- An initial map state with no overlays. -/
def emptyMap : MapState := { sources := [], layers := [], lastFit := none }

/-- A state holding one feature and an empty selection. -/
def stateNoSelection : SyncState :=
  { draw := { features := [sampleFeature], selected := [] }, map := emptyMap }

/-- C7 witness: the no-op theorem applied at a concrete state. -/
theorem claim7_empty_selection_noop_witness :
    stateNoSelection.draw.selected = [] ∧
      changeSelectedFill (fun _ _ => 0) "#ff0000" none stateNoSelection =
        stateNoSelection :=
  ⟨rfl, claim7_empty_selection_noop (fun _ _ => 0) "#ff0000" none stateNoSelection rfl⟩

/-! ## Store lemmas for the fill mutators -/

/-- Filtering out one id does not change the first occurrence of a different
id. -/
theorem find?_filter_ne_id (l : List Feature) (a j : String) (h : j ≠ a) :
    (l.filter (fun g => g.id ≠ a)).find? (fun f => f.id = j) =
      l.find? (fun f => f.id = j) := by
  rw [List.find?_filter]
  congr 1
  funext x
  by_cases hj : x.id = j
  · simp [hj, h]
  · simp [hj]

/-- No feature with the removed id survives the filter. -/
theorem find?_filter_self_id (l : List Feature) (a : String) :
    (l.filter (fun g => g.id ≠ a)).find? (fun f => f.id = a) = none := by
  rw [List.find?_eq_none]
  intro x hx
  have := (List.mem_filter.mp hx).2
  simpa using this

/-- `applyFillToId` on an absent id is the identity. -/
theorem applyFillToId_absent (color : String) (opacity : Option ℚ)
    (l : List Feature) (id : String)
    (h : l.find? (fun f => f.id = id) = none) :
    applyFillToId color opacity l id = l := by
  simp [applyFillToId, h]

/-- After `applyFillToId` hits a present id, the stored feature with that id
is the updated copy. -/
theorem find?_applyFillToId_self (color : String) (opacity : Option ℚ)
    (l : List Feature) (id : String) (f : Feature)
    (h : l.find? (fun f => f.id = id) = some f) :
    (applyFillToId color opacity l id).find? (fun g => g.id = id) =
      some { f with properties := setFillProps color opacity f.properties } := by
  have hf : f.id = id := by simpa using List.find?_some h
  simp [applyFillToId, h, List.find?_append, find?_filter_self_id, List.find?_cons, hf]

/-- Unfolding `applyFillToId` when the id is present. -/
theorem applyFillToId_present (color : String) (opacity : Option ℚ)
    (l : List Feature) (id : String) (f : Feature)
    (h : l.find? (fun f => f.id = id) = some f) :
    applyFillToId color opacity l id =
      (l.filter (fun g => g.id ≠ id)) ++
        [{ f with properties := setFillProps color opacity f.properties }] := by
  simp [applyFillToId, h]

/-- `applyFillToId` for one id does not move or change the first occurrence
of a different id. -/
theorem find?_applyFillToId_ne (color : String) (opacity : Option ℚ)
    (l : List Feature) (a j : String) (h : j ≠ a) :
    (applyFillToId color opacity l a).find? (fun f => f.id = j) =
      l.find? (fun f => f.id = j) := by
  cases hfind : l.find? (fun f => f.id = a) with
  | none => rw [applyFillToId_absent color opacity l a hfind]
  | some f =>
    have hf : f.id = a := by simpa using List.find?_some hfind
    have hfj : (f.id = j) = False := by simp [hf, Ne.symm h]
    rw [applyFillToId_present color opacity l a f hfind, List.find?_append,
      find?_filter_ne_id l a j h]
    cases hres : l.find? (fun f => f.id = j) with
    | none => simp [List.find?_cons, hfj]
    | some g => rfl

/-- Setting the same fill twice is the same as setting it once. -/
theorem setFillProps_idem (color : String) (opacity : Option ℚ) (p : Props) :
    setFillProps color opacity (setFillProps color opacity p) =
      setFillProps color opacity p := by
  cases opacity <;> simp [setFillProps]

/-- `applyFillToId` is idempotent. -/
theorem applyFillToId_idem (color : String) (opacity : Option ℚ)
    (l : List Feature) (id : String) :
    applyFillToId color opacity (applyFillToId color opacity l id) id =
      applyFillToId color opacity l id := by
  cases hfind : l.find? (fun f => f.id = id) with
  | none =>
    rw [applyFillToId_absent color opacity l id hfind,
      applyFillToId_absent color opacity l id hfind]
  | some f =>
    have hf : f.id = id := by simpa using List.find?_some hfind
    have h1 : (applyFillToId color opacity l id).find? (fun g => g.id = id) =
        some { f with properties := setFillProps color opacity f.properties } :=
      find?_applyFillToId_self color opacity l id f hfind
    rw [applyFillToId_present color opacity _ id _ h1,
      applyFillToId_present color opacity l id f hfind,
      List.filter_append, List.filter_filter]
    simp [hf, setFillProps_idem]

/-! ## C8 — idempotence of the selected-fill mutator -/

/-- C8: applying the same `(fillColor, fillOpacity)` pair to the same
selected feature twice in succession is idempotent — the draw store (hence
every feature's properties) after the second application equals the store
after the first. -/
theorem claim8_fill_idempotent (angleOf : ℚ → ℚ → ℚ) (color : String)
    (opacity : Option ℚ) (s : SyncState) (id : String)
    (h : s.draw.selected = [id]) :
    (changeSelectedFill angleOf color opacity
        (changeSelectedFill angleOf color opacity s)).draw =
      (changeSelectedFill angleOf color opacity s).draw := by
  have h1 : changeSelectedFill angleOf color opacity s =
      { draw := { features := applyFillToId color opacity s.draw.features id,
                  selected := [id] },
        map := updateCustomColoredLayer angleOf s.map
          (applyFillToId color opacity s.draw.features id) } := by
    simp [changeSelectedFill, h]
  rw [h1]
  simp [changeSelectedFill, applyFillToId_idem]

/-- A state holding one feature which is selected. -/
def stateSelectedA : SyncState :=
  { draw := { features := [sampleFeature], selected := ["a"] }, map := emptyMap }

/-- C8 witness: idempotence at a concrete selected feature. -/
theorem claim8_fill_idempotent_witness :
    stateSelectedA.draw.selected = ["a"] ∧
      (changeSelectedFill (fun _ _ => 0) "#00ff00" (some (1/2))
          (changeSelectedFill (fun _ _ => 0) "#00ff00" (some (1/2))
            stateSelectedA)).draw =
        (changeSelectedFill (fun _ _ => 0) "#00ff00" (some (1/2))
          stateSelectedA).draw :=
  ⟨rfl, claim8_fill_idempotent (fun _ _ => 0) "#00ff00" (some (1/2))
    stateSelectedA "a" rfl⟩

/-- Fill properties after `setFillProps`: the color is stored and the derived
RGB cache is recomputed from it. -/
theorem setFillProps_fillColor (color : String) (opacity : Option ℚ) (p : Props) :
    (setFillProps color opacity p).fillColor = some color := by
  cases opacity <;> simp [setFillProps]

/-- The derived RGB value `setFillProps` stores. -/
theorem setFillProps_fillRgb (color : String) (opacity : Option ℚ) (p : Props) :
    (setFillProps color opacity p).fillRgb = some (hexToRgbString color) := by
  cases opacity <;> simp [setFillProps]

/-- Folding `applyFillToId` over a list of ids not containing `j` leaves the
first occurrence of `j` unchanged. -/
theorem find?_foldl_applyFillToId_not_mem (color : String) (opacity : Option ℚ)
    (j : String) :
    ∀ (ids : List String) (l : List Feature), j ∉ ids →
      (ids.foldl (applyFillToId color opacity) l).find? (fun f => f.id = j) =
        l.find? (fun f => f.id = j) := by
  intro ids
  induction ids with
  | nil => intro l _; rfl
  | cons a rest ih =>
    intro l hj
    have hne : j ≠ a := fun h => hj (h ▸ List.mem_cons_self a rest)
    have hrest : j ∉ rest := fun h => hj (List.mem_cons_of_mem a h)
    rw [List.foldl_cons, ih (applyFillToId color opacity l a) hrest,
      find?_applyFillToId_ne color opacity l a j hne]

/-- Folding `applyFillToId` over the selected ids: a feature whose id is
selected and present ends up stored with the updated fill properties. -/
theorem find?_foldl_applyFillToId_mem (color : String) (opacity : Option ℚ)
    (j : String) :
    ∀ (ids : List String) (l : List Feature) (f : Feature), j ∈ ids →
      l.find? (fun g => g.id = j) = some f →
      (ids.foldl (applyFillToId color opacity) l).find? (fun g => g.id = j) =
        some { f with properties := setFillProps color opacity f.properties } := by
  intro ids
  induction ids with
  | nil => intro l f hj; exact absurd hj (List.not_mem_nil j)
  | cons a rest ih =>
    intro l f hj hfind
    rw [List.foldl_cons]
    by_cases ha : j = a
    · subst ha
      have h1 : (applyFillToId color opacity l j).find? (fun g => g.id = j) =
          some { f with properties := setFillProps color opacity f.properties } :=
        find?_applyFillToId_self color opacity l j f hfind
      by_cases hrest : j ∈ rest
      · have := ih (applyFillToId color opacity l j) _ hrest h1
        rw [this]
        simp [setFillProps_idem]
      · rw [find?_foldl_applyFillToId_not_mem color opacity j rest _ hrest, h1]
    · have hrest : j ∈ rest := by
        rcases List.mem_cons.mp hj with h | h
        · exact absurd h ha
        · exact h
      have h1 : (applyFillToId color opacity l a).find? (fun g => g.id = j) =
          some f := by
        rw [find?_applyFillToId_ne color opacity l a j ha, hfind]
      exact ih (applyFillToId color opacity l a) f hrest h1

/-- Invariant of the `applyFillToAll` loop: once every not-yet-processed
polygon is in `todo`, every polygon left at the end carries the freshly set
fill properties. -/
theorem foldl_applyFillStep_poly_spec (color : String) (opacity : Option ℚ) :
    ∀ (todo acc : List Feature),
      (∀ g ∈ acc, isPolyFeature g = true →
        (g.properties.fillColor = some color ∧
          g.properties.fillRgb = some (hexToRgbString color)) ∨ g ∈ todo) →
      ∀ g ∈ todo.foldl (applyFillStep color opacity) acc,
        isPolyFeature g = true →
        g.properties.fillColor = some color ∧
          g.properties.fillRgb = some (hexToRgbString color) := by
  intro todo
  induction todo with
  | nil =>
    intro acc hinv g hg hpoly
    rcases hinv g hg hpoly with h | h
    · exact h
    · exact absurd h (List.not_mem_nil g)
  | cons p rest ih =>
    intro acc hinv g hg hpoly
    rw [List.foldl_cons] at hg
    refine ih (applyFillStep color opacity acc p) ?_ g hg hpoly
    intro g' hg' hpoly'
    rcases List.mem_append.mp hg' with hmem | hmem
    · have hacc := List.mem_filter.mp hmem
      rcases hinv g' hacc.1 hpoly' with h | h
      · exact Or.inl h
      · rcases List.mem_cons.mp h with h | h
        · subst h
          have : g'.id ≠ g'.id := by simpa using hacc.2
          exact absurd rfl this
        · exact Or.inr h
    · have : g' = { p with properties := setFillProps color opacity p.properties } := by
        simpa using hmem
      subst this
      exact Or.inl ⟨setFillProps_fillColor color opacity p.properties,
        setFillProps_fillRgb color opacity p.properties⟩

/-- The code's conversion agrees everywhere with the amended per-channel
description (for the empty string both sides give full white: the code
coalesces `'' || '#ffffff'`, the description fails all three parses). -/
theorem hexToRgbString_eq_rgbSpecAmended (color : String) :
    hexToRgbString color = rgbSpecAmended color := by
  by_cases h : color = ""
  · subst h; decide
  · simp [hexToRgbString, rgbSpecAmended, jsOrElse, h]

/-- The `draw.create` handler on a feature without a `fillRgb`: the
synthesized cache is the decomposition of the (possibly defaulted)
`fillColor`. -/
theorem drawCreateDefaults_fillRgb (p : Props) (h : p.fillRgb = none) :
    (drawCreateDefaults p).fillRgb =
      some (rgbSpecAmended (((drawCreateDefaults p).fillColor).getD "")) := by
  rcases p with ⟨fc, fo, fr, sc, sw, lt⟩
  simp only at h
  subst h
  cases fc with
  | none =>
    cases fo <;>
      simp [drawCreateDefaults, jsOrHashWhite, hexToRgbString_eq_rgbSpecAmended]
  | some c =>
    by_cases hc : c = "" <;> cases fo <;>
      simp [drawCreateDefaults, jsOrHashWhite, hc,
        hexToRgbString_eq_rgbSpecAmended] <;> decide

/-! ## C1 — derived `fillRgb` consistency of the fill mutators -/

/-- C1 counterexample: `changeSelectedFill('#000000')` stores
`fillRgb = "255,255,255"` although the hex-to-decimal decomposition of
`#000000` is `"0,0,0"` (the JS `|| 255` fallback also fires on a parsed `0`,
per channel); and the `draw.create` handler keeps a pre-existing `fillRgb`
(`"1,2,3"`) while setting `fillColor` to `#ffffff`, whose decomposition it is
not. -/
theorem claim1_fill_rgb_counterexample :
    ((changeSelectedFill (fun _ _ => 0) "#000000" none stateSelectedA).draw.features.map
        (fun f => f.properties.fillRgb)) = [some "255,255,255"] ∧
    rgbSpecClaim "#000000" = "0,0,0" ∧
    ("255,255,255" : String) ≠ "0,0,0" ∧
    (drawCreateDefaults { fillRgb := some "1,2,3" }).fillColor = some "#ffffff" ∧
    (drawCreateDefaults { fillRgb := some "1,2,3" }).fillRgb = some "1,2,3" ∧
    rgbSpecClaim "#ffffff" = "255,255,255" ∧
    ("1,2,3" : String) ≠ "255,255,255" := by
  refine ⟨?_, by decide, by decide, by decide, by decide, by decide, by decide⟩
  decide

/-- C1 (amended): for every feature whose `fillColor` is set by
`changeSelectedFill` or `applyFillToAll`, the stored `fillRgb` equals the
per-channel hex decomposition of the new color in which each channel
independently falls back to `255` when its two-digit parse fails *or* parses
to zero; the `draw.create` handler establishes the same relation between the
(possibly defaulted) `fillColor` and the `fillRgb` it synthesizes for a
feature that did not already carry one. -/
theorem claim1_fill_rgb_decomposition :
    (∀ (angleOf : ℚ → ℚ → ℚ) (color : String) (opacity : Option ℚ)
        (s : SyncState) (j : String) (f : Feature),
      j ∈ s.draw.selected →
      s.draw.features.find? (fun g => g.id = j) = some f →
      (changeSelectedFill angleOf color opacity s).draw.features.find?
          (fun g => g.id = j) =
        some { f with properties := setFillProps color opacity f.properties } ∧
      (setFillProps color opacity f.properties).fillColor = some color ∧
      (setFillProps color opacity f.properties).fillRgb =
        some (rgbSpecAmended color)) ∧
    (∀ (angleOf : ℚ → ℚ → ℚ) (color : String) (opacity : Option ℚ)
        (s : SyncState) (g : Feature),
      g ∈ (applyFillToAll angleOf color opacity s).draw.features →
      isPolyFeature g = true →
      g.properties.fillColor = some color ∧
      g.properties.fillRgb = some (rgbSpecAmended color)) ∧
    (∀ p : Props, p.fillRgb = none →
      (drawCreateDefaults p).fillRgb =
        some (rgbSpecAmended (((drawCreateDefaults p).fillColor).getD ""))) := by
  refine ⟨?_, ?_, fun p h => drawCreateDefaults_fillRgb p h⟩
  · intro angleOf color opacity s j f hj hfind
    have hne : ¬s.draw.selected.isEmpty := by
      cases hsel : s.draw.selected with
      | nil => rw [hsel] at hj; exact absurd hj (List.not_mem_nil j)
      | cons a rest => simp
    refine ⟨?_, setFillProps_fillColor color opacity f.properties,
      (setFillProps_fillRgb color opacity f.properties).trans
        (by rw [hexToRgbString_eq_rgbSpecAmended])⟩
    simp only [changeSelectedFill, Bool.not_eq_true, hne, if_neg]
    exact find?_foldl_applyFillToId_mem color opacity j s.draw.selected
      s.draw.features f hj hfind
  · intro angleOf color opacity s g hg hpoly
    have := foldl_applyFillStep_poly_spec color opacity
      (s.draw.features.filter isPolyFeature) s.draw.features
      (fun g' hg' hpoly' => Or.inr (List.mem_filter.mpr ⟨hg', hpoly'⟩))
      g (by simpa [applyFillToAll] using hg) hpoly
    exact ⟨this.1, this.2.trans (by rw [hexToRgbString_eq_rgbSpecAmended])⟩

/-- C1 witness: the amended statement applied at a concrete selected
feature, a concrete store for `applyFillToAll`, and a concrete fresh
property bag. -/
theorem claim1_fill_rgb_decomposition_witness :
    ("a" ∈ stateSelectedA.draw.selected ∧
      stateSelectedA.draw.features.find? (fun g => g.id = "a") = some sampleFeature ∧
      ((changeSelectedFill (fun _ _ => 0) "#336699" none stateSelectedA).draw.features.find?
          (fun g => g.id = "a") =
        some { sampleFeature with
          properties := setFillProps "#336699" none sampleFeature.properties } ∧
        (setFillProps "#336699" none sampleFeature.properties).fillColor =
          some "#336699" ∧
        (setFillProps "#336699" none sampleFeature.properties).fillRgb =
          some (rgbSpecAmended "#336699"))) ∧
    (isPolyFeature sampleFeature = true ∧
      ∀ g ∈ (applyFillToAll (fun _ _ => 0) "#336699" none stateSelectedA).draw.features,
        isPolyFeature g = true →
        g.properties.fillColor = some "#336699" ∧
        g.properties.fillRgb = some (rgbSpecAmended "#336699")) ∧
    (({} : Props).fillRgb = none ∧
      (drawCreateDefaults {}).fillRgb =
        some (rgbSpecAmended (((drawCreateDefaults ({} : Props)).fillColor).getD ""))) :=
  ⟨⟨by decide, rfl,
      claim1_fill_rgb_decomposition.1 (fun _ _ => 0) "#336699" none stateSelectedA
        "a" sampleFeature (by decide) rfl⟩,
    ⟨by decide,
      fun g hg hp =>
        claim1_fill_rgb_decomposition.2.1 (fun _ _ => 0) "#336699" none
          stateSelectedA g hg hp⟩,
    ⟨rfl, claim1_fill_rgb_decomposition.2.2 {} rfl⟩⟩

/-! ## C9 — exported features with a `fillColor` carry a `fillRgb` -/

/-- A feature whose `fillColor` is present but empty (and no `fillRgb`). -/
def emptyFillFeature : Feature :=
  { id := "e",
    geometry := some (Geometry.polygon [[(0, 0), (0, 1), (1, 1), (0, 0)]]),
    properties := { fillColor := some "" } }

/-- C9 counterexample: `getDrawData` synthesizes `fillRgb` only behind the
truthiness test `if (props.fillColor)`, so a feature carrying the (falsy)
`fillColor` value `""` is exported with a `fillColor` property but no
`fillRgb`. -/
theorem claim9_export_rgb_counterexample :
    ((getDrawData [emptyFillFeature]).features.map
        (fun f => (f.properties.fillColor, f.properties.fillRgb))) =
      [(some "", none)] ∧
    (some "" : Option String).isSome = true := by
  constructor
  · decide
  · decide

/-- C9 (amended): every feature returned by `getDrawData` whose `fillColor`
is present and non-empty (truthy) also carries a `fillRgb` — the export
fixup synthesizes the missing cache from `fillColor`. -/
theorem claim9_export_rgb_present (l : List Feature) (f : Feature)
    (hf : f ∈ (getDrawData l).features) (c : String)
    (hc : f.properties.fillColor = some c) (hne : c ≠ "") :
    (f.properties.fillRgb).isSome = true := by
  rcases List.mem_map.mp hf with ⟨f0, _, rfl⟩
  by_cases hcase :
      (truthyStr f0.properties.fillColor && !truthyStr f0.properties.fillRgb) = true
  · simp [exportFix, hcase]
  · have hfix : exportFix f0 = f0 := by simp [exportFix, hcase]
    rw [hfix] at hc ⊢
    have htr : truthyStr f0.properties.fillColor = true := by
      simp [truthyStr, hc, hne]
    have hrgb : truthyStr f0.properties.fillRgb = true := by
      rcases Bool.eq_false_or_eq_true (truthyStr f0.properties.fillRgb) with h | h
      · exact h
      · exact absurd (by simp [htr, h]) hcase
    cases hr : f0.properties.fillRgb with
    | none => rw [hr] at hrgb; simp [truthyStr] at hrgb
    | some r => simp

/-- C9 witness: the amended statement at a concrete exported feature. -/
theorem claim9_export_rgb_present_witness :
    exportFix sampleFeature ∈ (getDrawData [sampleFeature]).features ∧
    (exportFix sampleFeature).properties.fillColor = some "#ff0000" ∧
    ("#ff0000" : String) ≠ "" ∧
    ((exportFix sampleFeature).properties.fillRgb).isSome = true :=
  ⟨by simp [getDrawData], by decide, by decide,
    claim9_export_rgb_present [sampleFeature] (exportFix sampleFeature)
      (by simp [getDrawData]) "#ff0000" (by decide) (by decide)⟩

/-! ## C4 — export → import round trip -/

/-- The synthesized RGB string is never empty (it always contains two
commas), so a synthesized `fillRgb` is truthy. -/
theorem hexToRgbString_ne_empty (c : String) : hexToRgbString c ≠ "" := by
  intro h
  have hl := congrArg String.length h
  simp only [hexToRgbString, String.length_append] at hl
  have hc : ("," : String).length = 1 := by decide
  rw [hc] at hl
  simp at hl

/-- The export fixup is idempotent: a synthesized `fillRgb` is truthy, so a
second export leaves the feature unchanged. -/
theorem exportFix_idem (f : Feature) : exportFix (exportFix f) = exportFix f := by
  by_cases hcase :
      (truthyStr f.properties.fillColor && !truthyStr f.properties.fillRgb) = true
  · have h1 : exportFix f =
        { f with properties :=
          { f.properties with
            fillRgb := some (hexToRgbString (jsOrHashWhite f.properties.fillColor)) } } := by
      simp [exportFix, hcase]
    rw [h1]
    have htr : truthyStr
        (some (hexToRgbString (jsOrHashWhite f.properties.fillColor))) = true := by
      simp [truthyStr, hexToRgbString_ne_empty]
    simp [exportFix, htr]
  · have h1 : exportFix f = f := by simp [exportFix, hcase]
    rw [h1, h1]

/-- Re-wrapping features while keeping their properties is the identity. -/
theorem map_keep_properties_id (l : List Feature) :
    l.map (fun f => { f with properties := f.properties }) = l := by
  induction l with
  | nil => rfl
  | cons x xs ih => simp [ih]

/-- C4: exporting the draw store (`getDrawData`, serialized to JSON — the
stringify/parse pair is the identity on feature collections) and re-importing
the result through `loadGeoJson` reproduces the exported features exactly:
every feature's reserved properties (`fillColor`, `fillOpacity`, `fillRgb`,
`strokeColor`, `strokeWidth`, `labelText`) re-enter the store byte-for-byte
equal, and a subsequent export returns the same collection again. -/
theorem claim4_export_import_roundtrip (angleOf : ℚ → ℚ → ℚ) (s : SyncState)
    (opts : Option LoadOpts) :
    (loadGeoJson angleOf s (getDrawData s.draw.features) opts).draw.features =
      (getDrawData s.draw.features).features ∧
    getDrawData
        ((loadGeoJson angleOf s (getDrawData s.draw.features) opts).draw.features) =
      getDrawData s.draw.features := by
  have h1 : (loadGeoJson angleOf s (getDrawData s.draw.features) opts).draw.features =
      (getDrawData s.draw.features).features := by
    simp [loadGeoJson, map_keep_properties_id]
  refine ⟨h1, ?_⟩
  rw [h1]
  simp only [getDrawData, List.map_map]
  exact congrArg FeatureCollection.mk
    (List.map_congr_left (fun f _ => exportFix_idem f))

/-! ## C10 — `loadGeoJson` fits bounds unless explicitly suppressed -/

/-- Folding any `lastFit`-preserving step preserves `lastFit`. -/
theorem lastFit_foldl {β : Type} (g : MapState → β → MapState)
    (hg : ∀ m b, (g m b).lastFit = m.lastFit) :
    ∀ (l : List β) (m : MapState), (l.foldl g m).lastFit = m.lastFit := by
  intro l
  induction l with
  | nil => intro m; rfl
  | cons x xs ih => intro m; rw [List.foldl_cons, ih, hg]

/-- The coordinate-label upsert never touches the fitted bounds. -/
theorem lastFit_upsertCoordinateLabels (angleOf : ℚ → ℚ → ℚ) (m : MapState)
    (collection : FeatureCollection) :
    (upsertCoordinateLabels angleOf m collection).lastFit = m.lastFit := by
  have hrl : ∀ (m : MapState) (i : Nat),
      (removeCoordLayerStep m i).lastFit = m.lastFit := fun _ _ => rfl
  have hrs : ∀ (m : MapState) (i : Nat),
      (removeCoordSourceStep m i).lastFit = m.lastFit := fun _ _ => rfl
  have hts : ∀ (es : List VertEntry) (m : MapState) (t : Tier),
      (addCoordTierStep es m t).lastFit = m.lastFit := by
    intro es m t
    unfold addCoordTierStep
    dsimp only
    split <;> rfl
  unfold upsertCoordinateLabels
  dsimp only
  split
  · rw [lastFit_foldl removeCoordSourceStep hrs, lastFit_foldl removeCoordLayerStep hrl]
  · rw [lastFit_foldl _ (hts _), lastFit_foldl removeCoordSourceStep hrs,
      lastFit_foldl removeCoordLayerStep hrl]

/-- Every rebuild stage preserves the fitted bounds. -/
theorem lastFit_updateFillStage (features : List Feature) (m : MapState) :
    (updateFillStage features m).lastFit = m.lastFit := by
  unfold updateFillStage
  dsimp only
  split <;> rfl

/-- Stroke stage preserves the fitted bounds. -/
theorem lastFit_updateStrokeStage (features : List Feature) (m : MapState) :
    (updateStrokeStage features m).lastFit = m.lastFit := by
  unfold updateStrokeStage
  dsimp only
  split <;> rfl

/-- Text stage preserves the fitted bounds. -/
theorem lastFit_updateTextStage (features : List Feature) (m : MapState) :
    (updateTextStage features m).lastFit = m.lastFit := by
  unfold updateTextStage
  dsimp only
  split <;> rfl

/-- The overlay synchronizer never touches the fitted bounds. -/
theorem lastFit_updateCustomColoredLayer (angleOf : ℚ → ℚ → ℚ) (m : MapState)
    (features : List Feature) :
    (updateCustomColoredLayer angleOf m features).lastFit = m.lastFit := by
  unfold updateCustomColoredLayer
  rw [lastFit_updateTextStage, lastFit_upsertCoordinateLabels,
    lastFit_updateStrokeStage, lastFit_updateFillStage]

/-- C10: `loadGeoJson` fits the map view to the loaded collection's bounds
whenever the options argument is omitted or its `fitBounds` field is absent;
only an explicit `fitBounds = false` suppresses the fit (the guard is
`options?.fitBounds !== false`). -/
theorem claim10_loadGeoJson_fit_default (angleOf : ℚ → ℚ → ℚ) (s : SyncState)
    (collection : FeatureCollection) (opts : Option LoadOpts) (b : Bounds)
    (hb : boundsOfCollection collection = some b) :
    ((loadGeoJson angleOf s collection opts).map.lastFit =
      if jsFitCond opts then some b else s.map.lastFit) ∧
    (jsFitCond opts = true ↔ opts ≠ some { fitBounds := some false }) := by
  constructor
  · unfold loadGeoJson
    dsimp only
    rw [lastFit_updateCustomColoredLayer, lastFit_upsertCoordinateLabels]
    rw [map_keep_properties_id]
    split
    · simp [fitToCollection, hb]
    · rfl
  · cases opts with
    | none => simp [jsFitCond]
    | some o =>
      rcases o with ⟨fb⟩
      cases fb with
      | none => simp [jsFitCond]
      | some bv => cases bv <;> simp [jsFitCond]

/-- The collection used by the C10 witness. -/
def sampleCollection : FeatureCollection := { features := [sampleFeature] }

/-- The bounds of `sampleCollection`. -/
def sampleBounds : Bounds := { sw := (0, 0), ne := (1, 1) }

/-- C10 witness: loading with no options fits to the collection's bounds. -/
theorem claim10_loadGeoJson_fit_default_witness :
    boundsOfCollection sampleCollection = some sampleBounds ∧
    ((loadGeoJson (fun _ _ => 0) stateNoSelection sampleCollection none).map.lastFit =
      if jsFitCond none then some sampleBounds else stateNoSelection.map.lastFit) ∧
    (jsFitCond none = true ↔ (none : Option LoadOpts) ≠ some { fitBounds := some false }) := by
  have hb : boundsOfCollection sampleCollection = some sampleBounds := by
    simp [boundsOfCollection, sampleCollection, sampleFeature, getFirstCoordinate,
      getCoordinateFromGeometry, extendBoundsWithFeature, extendBoundsWithGeometry,
      extendBounds, sampleBounds]
  exact ⟨hb,
    (claim10_loadGeoJson_fit_default (fun _ _ => 0) stateNoSelection
      sampleCollection none sampleBounds hb).1,
    (claim10_loadGeoJson_fit_default (fun _ _ => 0) stateNoSelection
      sampleCollection none sampleBounds hb).2⟩

/-! ## C6 — the fill overlay contains exactly the colored polygon features -/

/-- Removing a source empties its slot. -/
theorem getSource_removeSource_self (m : MapState) (s : String) :
    getSource (removeSource m s) s = none := by
  simp only [getSource, removeSource]
  have h : (m.sources.filter (fun p => p.1 ≠ s)).find? (fun p => p.1 = s) = none := by
    rw [List.find?_eq_none]
    intro x hx
    have := (List.mem_filter.mp hx).2
    simpa using this
  rw [h]
  rfl

/-- Removing one source leaves the others in place. -/
theorem getSource_removeSource_ne (m : MapState) (s t : String) (h : t ≠ s) :
    getSource (removeSource m s) t = getSource m t := by
  simp only [getSource, removeSource]
  rw [List.find?_filter]
  congr 2
  funext x
  by_cases hx : x.1 = t
  · simp [hx, h]
  · simp [hx]

/-- Adding a different source does not affect a lookup. -/
theorem getSource_addSource_ne (m : MapState) (s : String) (d : SourceData)
    (t : String) (h : t ≠ s) :
    getSource (addSource m s d) t = getSource m t := by
  simp only [getSource, addSource]
  rw [List.find?_append]
  cases hres : m.sources.find? (fun p => p.1 = t) with
  | none => simp [List.find?_cons, Ne.symm h]
  | some x => rfl

/-- Adding a source after removing it makes the lookup return the new
data. -/
theorem getSource_addSource_self (m : MapState) (s : String) (d : SourceData)
    (h : getSource m s = none) :
    getSource (addSource m s d) s = some d := by
  simp only [getSource, addSource] at h ⊢
  have hf : m.sources.find? (fun p => p.1 = s) = none := by
    cases hres : m.sources.find? (fun p => p.1 = s) with
    | none => rfl
    | some x => rw [hres] at h; simp at h
  rw [List.find?_append, hf]
  simp [List.find?_cons]

/-- Layer operations do not touch sources. -/
theorem sources_removeLayer (m : MapState) (l : String) :
    (removeLayer m l).sources = m.sources := rfl

/-- Adding a layer does not touch sources. -/
theorem sources_addLayer (m : MapState) (l : String) :
    (addLayer m l).sources = m.sources := rfl

/-- Source operations do not touch layers. -/
theorem layers_removeSource (m : MapState) (s : String) :
    (removeSource m s).layers = m.layers := rfl

/-- Adding a source does not touch layers. -/
theorem layers_addSource (m : MapState) (s : String) (d : SourceData) :
    (addSource m s d).layers = m.layers := rfl

/-- Membership after removing a layer. -/
theorem mem_layers_removeLayer (m : MapState) (l t : String) :
    t ∈ (removeLayer m l).layers ↔ (t ∈ m.layers ∧ t ≠ l) := by
  simp [removeLayer]

/-- Membership after adding a layer. -/
theorem mem_layers_addLayer (m : MapState) (l t : String) :
    t ∈ (addLayer m l).layers ↔ (t ∈ m.layers ∨ t = l) := by
  simp [addLayer]

/-- `getSource` is unchanged by the tier-layer tear-down fold. -/
theorem getSource_foldl_removeCoordLayerStep (t : String) :
    ∀ (l : List Nat) (m : MapState),
      getSource (l.foldl removeCoordLayerStep m) t = getSource m t := by
  intro l
  induction l with
  | nil => intro m; rfl
  | cons x xs ih =>
    intro m
    rw [List.foldl_cons, ih]
    rfl

/-- `getSource` at a non-tier id is unchanged by the tier-source tear-down
fold. -/
theorem getSource_foldl_removeCoordSourceStep (t : String) :
    ∀ (l : List Nat) (m : MapState), (∀ i ∈ l, t ≠ coordSourceId i) →
      getSource (l.foldl removeCoordSourceStep m) t = getSource m t := by
  intro l
  induction l with
  | nil => intro m _; rfl
  | cons x xs ih =>
    intro m h
    rw [List.foldl_cons, ih _ (fun i hi => h i (List.mem_cons_of_mem x hi))]
    exact getSource_removeSource_ne m (coordSourceId x) t (h x (List.mem_cons_self x xs))

/-- `getSource` at a non-tier id is unchanged by the tier re-add fold. -/
theorem getSource_foldl_addCoordTierStep (es : List VertEntry) (t : String) :
    ∀ (ts : List Tier) (m : MapState), (∀ tier ∈ ts, t ≠ coordSourceId tier.id) →
      getSource (ts.foldl (addCoordTierStep es) m) t = getSource m t := by
  intro ts
  induction ts with
  | nil => intro m _; rfl
  | cons x xs ih =>
    intro m h
    rw [List.foldl_cons, ih _ (fun tier hT => h tier (List.mem_cons_of_mem x hT))]
    unfold addCoordTierStep
    dsimp only
    split
    · rfl
    · show getSource
        (addSource m (coordSourceId x.id)
          (SourceData.labelPoints (buildPointFeaturesFromVertices
            (sampleByGrid es x.cellDeg)))) t = getSource m t
      exact getSource_addSource_ne m (coordSourceId x.id) _ t
        (h x (List.mem_cons_self x xs))

/-- The coordinate-label upsert leaves every non-tier source untouched. -/
theorem getSource_upsertCoordinateLabels_ne (angleOf : ℚ → ℚ → ℚ)
    (m : MapState) (collection : FeatureCollection) (t : String)
    (h : ∀ i ∈ [0, 1, 2, 3], t ≠ coordSourceId i)
    (h2 : ∀ tier ∈ tiers, t ≠ coordSourceId tier.id) :
    getSource (upsertCoordinateLabels angleOf m collection) t = getSource m t := by
  unfold upsertCoordinateLabels
  dsimp only
  split
  · rw [getSource_foldl_removeCoordSourceStep t _ _ h,
      getSource_foldl_removeCoordLayerStep t]
  · rw [getSource_foldl_addCoordTierStep _ t _ _ h2,
      getSource_foldl_removeCoordSourceStep t _ _ h,
      getSource_foldl_removeCoordLayerStep t]

/-- The stroke stage leaves every other source untouched. -/
theorem getSource_updateStrokeStage_ne (features : List Feature) (m : MapState)
    (t : String) (h : t ≠ strokeSourceId) :
    getSource (updateStrokeStage features m) t = getSource m t := by
  unfold updateStrokeStage
  dsimp only
  split
  · rw [getSource_removeSource_ne _ _ _ h]
    rfl
  · show getSource (addSource _ strokeSourceId _) t = getSource m t
    rw [getSource_addSource_ne _ _ _ _ h, getSource_removeSource_ne _ _ _ h]
    rfl

/-- The text stage leaves every other source untouched. -/
theorem getSource_updateTextStage_ne (features : List Feature) (m : MapState)
    (t : String) (h : t ≠ textSourceId) :
    getSource (updateTextStage features m) t = getSource m t := by
  unfold updateTextStage
  dsimp only
  split
  · rw [getSource_removeSource_ne _ _ _ h]
    rfl
  · show getSource (addSource _ textSourceId _) t = getSource m t
    rw [getSource_addSource_ne _ _ _ _ h, getSource_removeSource_ne _ _ _ h]
    rfl

/-- After the fill stage, the fill source holds exactly the colored subset —
or is absent when that subset is empty. -/
theorem getSource_updateFillStage (features : List Feature) (m : MapState) :
    getSource (updateFillStage features m) fillSourceId =
      if (features.filter hasCustomFill).isEmpty then none
      else some (SourceData.collection (features.filter hasCustomFill)) := by
  unfold updateFillStage
  dsimp only
  split
  · exact getSource_removeSource_self _ fillSourceId
  · show getSource (addSource _ fillSourceId _) fillSourceId = _
    rw [getSource_addSource_self _ _ _ (getSource_removeSource_self _ fillSourceId)]

/-- After the fill stage, the fill layer is present iff the colored subset is
non-empty. -/
theorem mem_fillLayer_updateFillStage (features : List Feature) (m : MapState) :
    (fillLayerId ∈ (updateFillStage features m).layers) ↔
      (features.filter hasCustomFill).isEmpty = false := by
  unfold updateFillStage
  dsimp only
  split
  · next hcond =>
    simp [layers_removeSource, mem_layers_removeLayer, hcond]
  · next hcond =>
    have hfalse : (features.filter hasCustomFill).isEmpty = false := by
      cases hE : (features.filter hasCustomFill).isEmpty with
      | true => exact absurd hE hcond
      | false => rfl
    rw [mem_layers_addLayer]
    simp [hfalse]

/-- Tier-source tear-down does not change layers. -/
theorem layers_foldl_removeCoordSourceStep :
    ∀ (l : List Nat) (m : MapState),
      ((l.foldl removeCoordSourceStep m)).layers = m.layers := by
  intro l
  induction l with
  | nil => intro m; rfl
  | cons x xs ih => intro m; rw [List.foldl_cons, ih]; rfl

/-- Tear-down of the tier layers does not change membership of other
layers. -/
theorem mem_layers_foldl_removeCoordLayerStep (t : String) :
    ∀ (l : List Nat) (m : MapState), (∀ i ∈ l, t ≠ coordLayerId i) →
      ((t ∈ (l.foldl removeCoordLayerStep m).layers) ↔ t ∈ m.layers) := by
  intro l
  induction l with
  | nil => intro m _; exact Iff.rfl
  | cons x xs ih =>
    intro m h
    rw [List.foldl_cons, ih _ (fun i hi => h i (List.mem_cons_of_mem x hi))]
    show t ∈ (removeLayer m (coordLayerId x)).layers ↔ _
    rw [mem_layers_removeLayer]
    simp [h x (List.mem_cons_self x xs)]

/-- Re-adding tier layers does not change membership of other layers. -/
theorem mem_layers_foldl_addCoordTierStep (es : List VertEntry) (t : String) :
    ∀ (ts : List Tier) (m : MapState), (∀ tier ∈ ts, t ≠ coordLayerId tier.id) →
      ((t ∈ (ts.foldl (addCoordTierStep es) m).layers) ↔ t ∈ m.layers) := by
  intro ts
  induction ts with
  | nil => intro m _; exact Iff.rfl
  | cons x xs ih =>
    intro m h
    rw [List.foldl_cons, ih _ (fun tier hT => h tier (List.mem_cons_of_mem x hT))]
    unfold addCoordTierStep
    dsimp only
    split
    · exact Iff.rfl
    · show t ∈ (addLayer _ (coordLayerId x.id)).layers ↔ _
      rw [mem_layers_addLayer]
      simp [h x (List.mem_cons_self x xs), layers_addSource]

/-- The coordinate-label upsert does not change membership of non-tier
layers. -/
theorem mem_layers_upsertCoordinateLabels_ne (angleOf : ℚ → ℚ → ℚ)
    (m : MapState) (collection : FeatureCollection) (t : String)
    (h : ∀ i ∈ [0, 1, 2, 3], t ≠ coordLayerId i)
    (h2 : ∀ tier ∈ tiers, t ≠ coordLayerId tier.id) :
    ((t ∈ (upsertCoordinateLabels angleOf m collection).layers) ↔ t ∈ m.layers) := by
  unfold upsertCoordinateLabels
  dsimp only
  split
  · rw [layers_foldl_removeCoordSourceStep,
      mem_layers_foldl_removeCoordLayerStep t _ _ h]
  · rw [mem_layers_foldl_addCoordTierStep _ t _ _ h2,
      layers_foldl_removeCoordSourceStep,
      mem_layers_foldl_removeCoordLayerStep t _ _ h]

/-- The stroke stage does not change membership of other layers. -/
theorem mem_layers_updateStrokeStage_ne (features : List Feature)
    (m : MapState) (t : String) (h : t ≠ strokeLayerId) :
    ((t ∈ (updateStrokeStage features m).layers) ↔ t ∈ m.layers) := by
  unfold updateStrokeStage
  dsimp only
  split
  · rw [layers_removeSource, mem_layers_removeLayer]
    simp [h]
  · rw [mem_layers_addLayer]
    simp [h, layers_addSource, layers_removeSource, mem_layers_removeLayer]

/-- The text stage does not change membership of other layers. -/
theorem mem_layers_updateTextStage_ne (features : List Feature)
    (m : MapState) (t : String) (h : t ≠ textLayerId) :
    ((t ∈ (updateTextStage features m).layers) ↔ t ∈ m.layers) := by
  unfold updateTextStage
  dsimp only
  split
  · rw [layers_removeSource, mem_layers_removeLayer]
    simp [h]
  · rw [mem_layers_addLayer]
    simp [h, layers_addSource, layers_removeSource, mem_layers_removeLayer]

/-- C6 counterexample: a Polygon feature that *carries* a `fillColor`
property whose value is the empty string is excluded by the truthiness
filter — after a synchronization pass over a snapshot consisting of exactly
that feature, the fill overlay's source and layer are absent, although the
claim's reading ("carries a fillColor property") requires the source to
contain the feature. -/
theorem claim6_fill_overlay_counterexample :
    emptyFillFeature.properties.fillColor.isSome = true ∧
    isPolyFeature emptyFillFeature = true ∧
    getSource (updateCustomColoredLayer (fun _ _ => 0) emptyMap [emptyFillFeature])
        fillSourceId = none ∧
    ¬fillLayerId ∈
        (updateCustomColoredLayer (fun _ _ => 0) emptyMap [emptyFillFeature]).layers := by
  refine ⟨by decide, by decide, ?_, ?_⟩
  · unfold updateCustomColoredLayer
    rw [getSource_updateTextStage_ne _ _ _ (by decide),
      getSource_upsertCoordinateLabels_ne _ _ _ _ (by decide) (by decide),
      getSource_updateStrokeStage_ne _ _ _ (by decide),
      getSource_updateFillStage]
    have hE : (List.filter hasCustomFill [emptyFillFeature]).isEmpty = true := by
      decide
    simp [hE]
  · unfold updateCustomColoredLayer
    rw [mem_layers_updateTextStage_ne _ _ _ (by decide),
      mem_layers_upsertCoordinateLabels_ne _ _ _ _ (by decide) (by decide),
      mem_layers_updateStrokeStage_ne _ _ _ (by decide),
      mem_fillLayer_updateFillStage]
    decide

/-- C6 (amended): after every synchronization pass over a feature snapshot,
the fill overlay's backing source contains exactly the Polygon/MultiPolygon
features of the snapshot whose `fillColor` is present *and non-empty*
(JS-truthy); when zero features qualify, the fill overlay's layer and source
are removed and not recreated.  The final conjunct spells out the qualifying
predicate. -/
theorem claim6_fill_overlay_exact (angleOf : ℚ → ℚ → ℚ) (m : MapState)
    (features : List Feature) :
    (getSource (updateCustomColoredLayer angleOf m features) fillSourceId =
      if (features.filter hasCustomFill).isEmpty then none
      else some (SourceData.collection (features.filter hasCustomFill))) ∧
    ((fillLayerId ∈ (updateCustomColoredLayer angleOf m features).layers) ↔
      (features.filter hasCustomFill).isEmpty = false) ∧
    (∀ f : Feature, hasCustomFill f =
      (decide (f.properties.fillColor ≠ none) &&
        decide (f.properties.fillColor ≠ some "") && isPolyFeature f)) := by
  refine ⟨?_, ?_, ?_⟩
  · unfold updateCustomColoredLayer
    rw [getSource_updateTextStage_ne _ _ _ (by decide),
      getSource_upsertCoordinateLabels_ne _ _ _ _ (by decide) (by decide),
      getSource_updateStrokeStage_ne _ _ _ (by decide),
      getSource_updateFillStage]
  · unfold updateCustomColoredLayer
    rw [mem_layers_updateTextStage_ne _ _ _ (by decide),
      mem_layers_upsertCoordinateLabels_ne _ _ _ _ (by decide) (by decide),
      mem_layers_updateStrokeStage_ne _ _ _ (by decide),
      mem_fillLayer_updateFillStage]
  · intro f
    cases hfc : f.properties.fillColor with
    | none => simp [hasCustomFill, truthyStr, hfc]
    | some c =>
      by_cases hc : c = "" <;> simp [hasCustomFill, truthyStr, hfc, hc]


/-! ## C3 — zoom-tier monotonicity of the grid sampler -/

/-- Nested floors: for a positive integer `m`, flooring `y / m` equals
flooring `⌊y⌋ / m` — the key fact that makes two sampling grids nest when
one cell size is an integer multiple of the other. -/
theorem floor_div_nested (y : ℚ) (m : ℕ) (hm : 0 < m) :
    ⌊y / (m : ℚ)⌋ = ⌊((⌊y⌋ : ℚ)) / (m : ℚ)⌋ := by
  have hm' : (0 : ℚ) < (m : ℚ) := by exact_mod_cast hm
  set k := ⌊y⌋ with hk
  set q := ⌊((k : ℚ)) / (m : ℚ)⌋ with hq
  have hq1 : (q : ℚ) ≤ (k : ℚ) / (m : ℚ) := Int.floor_le _
  have hq2 : (k : ℚ) / (m : ℚ) < q + 1 := Int.lt_floor_add_one _
  have hk1 : (k : ℚ) ≤ y := Int.floor_le y
  have hk2 : y < k + 1 := Int.lt_floor_add_one y
  rw [Int.floor_eq_iff]
  constructor
  · calc (q : ℚ) ≤ (k : ℚ) / (m : ℚ) := hq1
      _ ≤ y / (m : ℚ) := by gcongr
  · have hkq : (k : ℚ) < ((q + 1) * m : ℚ) := by
      rw [div_lt_iff₀ hm'] at hq2
      exact_mod_cast hq2
    have hkqZ : k < (q + 1) * (m : ℤ) := by exact_mod_cast hkq
    have hk1q : k + 1 ≤ (q + 1) * (m : ℤ) := hkqZ
    have hk1qQ : ((k : ℚ) + 1) ≤ ((q + 1) : ℚ) * (m : ℚ) := by exact_mod_cast hk1q
    calc y / (m : ℚ) < ((k : ℚ) + 1) / (m : ℚ) := by gcongr
      _ ≤ (q + 1 : ℚ) := by
          rw [div_le_iff₀ hm']
          exact hk1qQ

/-- The map sending a fine grid cell to the coarse cell containing it, when
the coarse cell size is `m` times the fine one (proof infrastructure, not
source code). -/
def coarsenKey (m : ℕ) (k : ℤ × ℤ) : ℤ × ℤ :=
  (⌊((k.1 : ℚ)) / (m : ℚ)⌋, ⌊((k.2 : ℚ)) / (m : ℚ)⌋)

/-- The length of a first-occurrence dedup is the number of distinct keys
not yet seen. -/
theorem dedupByKey_length {α κ : Type} [DecidableEq κ] (key : α → κ) :
    ∀ (l : List α) (seen : List κ),
      (dedupByKey key l seen).length =
        ((l.map key).toFinset \ seen.toFinset).card := by
  intro l
  induction l with
  | nil => intro seen; simp [dedupByKey]
  | cons a rest ih =>
    intro seen
    by_cases hain : key a ∈ seen
    · have h1 : dedupByKey key (a :: rest) seen = dedupByKey key rest seen := by
        simp only [dedupByKey]; rw [if_pos hain]
      rw [h1, ih]
      have : (key a) ∈ seen.toFinset := List.mem_toFinset.mpr hain
      simp [Finset.insert_sdiff_of_mem _ this]
    · have h1 : dedupByKey key (a :: rest) seen =
          a :: dedupByKey key rest (key a :: seen) := by
        simp only [dedupByKey]; rw [if_neg hain]
      rw [h1]
      simp only [List.length_cons, ih, List.map_cons, List.toFinset_cons]
      have hnot : (key a) ∉ seen.toFinset := fun h => hain (List.mem_toFinset.mp h)
      rw [Finset.insert_sdiff_of_not_mem _ hnot, Finset.sdiff_insert]
      have hins : insert (key a) ((rest.map key).toFinset \ seen.toFinset) =
          insert (key a) (((rest.map key).toFinset \ seen.toFinset).erase (key a)) := by
        ext x
        by_cases hx : x = key a <;> simp [hx]
      rw [hins, Finset.card_insert_of_not_mem (Finset.not_mem_erase _ _)]

/-- When the coarse cell size is `m` times the fine one, the coarse cell key
is a function of the fine cell key. -/
theorem gridKey_coarsen (e : VertEntry) (c : ℚ) (m : ℕ) (hm : 0 < m) :
    gridKey ((m : ℚ) * c) e = coarsenKey m (gridKey c e) := by
  unfold gridKey coarsenKey
  dsimp only
  rw [Prod.mk.injEq]
  have hdiv : ∀ x : ℚ, x / ((m : ℚ) * c) = (x / c) / (m : ℚ) := by
    intro x
    rw [div_div, mul_comm]
  constructor
  · rw [hdiv, floor_div_nested _ m hm]
  · rw [hdiv, floor_div_nested _ m hm]

/-- `toFinset` of a mapped list is the image of the original `toFinset`. -/
theorem map_toFinset_image {α κ : Type} [DecidableEq α] [DecidableEq κ]
    (f : α → κ) (l : List α) :
    (l.map f).toFinset = l.toFinset.image f := by
  induction l with
  | nil => simp
  | cons x xs ih => simp [ih]

/-- Grid sampling with a cell size that is an integer multiple `m` of
another retains at most as many entries: each coarse cell is the image of
fine cells, so there are at most as many occupied coarse cells. -/
theorem sampleByGrid_length_le (entries : List VertEntry) (c : ℚ) (m : ℕ)
    (hm : 0 < m) :
    (sampleByGrid entries ((m : ℚ) * c)).length ≤
      (sampleByGrid entries c).length := by
  unfold sampleByGrid
  rw [dedupByKey_length, dedupByKey_length]
  simp only [List.toFinset_nil, Finset.sdiff_empty]
  have hmap : entries.map (gridKey ((m : ℚ) * c)) =
      (entries.map (gridKey c)).map (coarsenKey m) := by
    rw [List.map_map]
    exact List.map_congr_left (fun e _ => gridKey_coarsen e c m hm)
  rw [hmap, map_toFinset_image]
  exact Finset.card_image_le

/-- The two vertices of the C3 counterexample: both fall in the same
`0.0015°` cell (index 3) but straddle the `0.005°` cell boundary. -/
def straddleEntries : List VertEntry :=
  [ { coord := (49/10000, 0), angle := 0 },
    { coord := (51/10000, 0), angle := 0 } ]

/-- C3 counterexample: the configured tier cell sizes are
`[0.06, 0.02, 0.005, 0.0015]`, and `0.0015` does not divide `0.005`
(ratio 10/3), so their grids do not nest: on `straddleEntries` the closest
tier (cell `0.0015°`) retains just one label while the previous tier (cell
`0.005°`) retains two — the claimed `count(tier 3) ≥ count(tier 2)` fails. -/
theorem claim3_tier_monotonicity_counterexample :
    tiers.map (fun t => t.cellDeg) = [6/100, 2/100, 5/1000, 15/10000] ∧
    (sampleByGrid straddleEntries ((15 : ℚ)/10000)).length <
      (sampleByGrid straddleEntries ((5 : ℚ)/1000)).length := by
  constructor
  · rfl
  · have k1 : gridKey ((15 : ℚ)/10000) { coord := (49/10000, 0), angle := 0 } =
        ((3 : ℤ), (0 : ℤ)) := by
      unfold gridKey
      rw [Prod.mk.injEq]
      constructor <;> norm_num
    have k2 : gridKey ((15 : ℚ)/10000) { coord := (51/10000, 0), angle := 0 } =
        ((3 : ℤ), (0 : ℤ)) := by
      unfold gridKey
      rw [Prod.mk.injEq]
      constructor <;> norm_num
    have k3 : gridKey ((5 : ℚ)/1000) { coord := (49/10000, 0), angle := 0 } =
        ((0 : ℤ), (0 : ℤ)) := by
      unfold gridKey
      rw [Prod.mk.injEq]
      constructor <;> norm_num
    have k4 : gridKey ((5 : ℚ)/1000) { coord := (51/10000, 0), angle := 0 } =
        ((1 : ℤ), (0 : ℤ)) := by
      unfold gridKey
      rw [Prod.mk.injEq]
      constructor <;> norm_num
    have h1 : (sampleByGrid straddleEntries ((15 : ℚ)/10000)).length = 1 := by
      unfold sampleByGrid straddleEntries
      simp [dedupByKey, k1, k2]
    have h2 : (sampleByGrid straddleEntries ((5 : ℚ)/1000)).length = 2 := by
      unfold sampleByGrid straddleEntries
      simp [dedupByKey, k3, k4]
    rw [h1, h2]
    exact Nat.one_lt_two

/-- C3 (amended): the grid sampling is monotone across the adjacent tier
pairs whose cell sizes nest — tier 1 (cell `0.02°`) retains at least as many
vertices as tier 0 (cell `0.06° = 3 × 0.02°`), and tier 2 (cell `0.005°`)
at least as many as tier 1 (`0.02° = 4 × 0.005°`) — for every fixed
deduplicated vertex set.  The pair tier 2 / tier 3 (cells `0.005°` and
`0.0015°`, ratio 10/3) does not nest and is not monotone (see the
counterexample). -/
theorem claim3_tier_monotonicity_amended :
    tiers.map (fun t => t.cellDeg) = [6/100, 2/100, 5/1000, 15/10000] ∧
    ∀ entries : List VertEntry,
      (sampleByGrid entries ((6 : ℚ)/100)).length ≤
        (sampleByGrid entries ((2 : ℚ)/100)).length ∧
      (sampleByGrid entries ((2 : ℚ)/100)).length ≤
        (sampleByGrid entries ((5 : ℚ)/1000)).length := by
  refine ⟨rfl, fun entries => ⟨?_, ?_⟩⟩
  · have h : ((3 : ℕ) : ℚ) * (2/100) = 6/100 := by norm_num
    have := sampleByGrid_length_le entries (2/100) 3 (by norm_num)
    rwa [h] at this
  · have h : ((4 : ℕ) : ℚ) * (5/1000) = 2/100 := by norm_num
    have := sampleByGrid_length_le entries (5/1000) 4 (by norm_num)
    rwa [h] at this


/-! ## C5 — vertex dedup emits one entry per rounded coordinate -/

/-- A key already seen never reappears in the dedup output. -/
theorem dedupByKey_countP_of_mem_seen {α κ : Type} [DecidableEq κ]
    (key : α → κ) (k : κ) :
    ∀ (l : List α) (seen : List κ), k ∈ seen →
      (dedupByKey key l seen).countP (fun a => key a = k) = 0 := by
  intro l
  induction l with
  | nil => intro seen _; rfl
  | cons a rest ih =>
    intro seen hk
    by_cases hain : key a ∈ seen
    · have h1 : dedupByKey key (a :: rest) seen = dedupByKey key rest seen := by
        simp only [dedupByKey]; rw [if_pos hain]
      rw [h1]
      exact ih seen hk
    · have h1 : dedupByKey key (a :: rest) seen =
          a :: dedupByKey key rest (key a :: seen) := by
        simp only [dedupByKey]; rw [if_neg hain]
      have hka : ¬(key a = k) := fun h => hain (h ▸ hk)
      rw [h1, List.countP_cons]
      simp [hka, ih _ (List.mem_cons_of_mem _ hk)]

/-- Dedup count: every key present in the input appears exactly once in the
output; an absent key appears zero times. -/
theorem dedupByKey_countP {α κ : Type} [DecidableEq κ] (key : α → κ) (k : κ) :
    ∀ (l : List α) (seen : List κ), k ∉ seen →
      (dedupByKey key l seen).countP (fun a => key a = k) =
        if l.countP (fun a => key a = k) = 0 then 0 else 1 := by
  intro l
  induction l with
  | nil => intro seen _; simp [dedupByKey]
  | cons a rest ih =>
    intro seen hk
    by_cases hain : key a ∈ seen
    · have h1 : dedupByKey key (a :: rest) seen = dedupByKey key rest seen := by
        simp only [dedupByKey]; rw [if_pos hain]
      have hka : ¬(key a = k) := fun h => hk (h ▸ hain)
      rw [h1, ih seen hk, List.countP_cons]
      simp [hka]
    · have h1 : dedupByKey key (a :: rest) seen =
          a :: dedupByKey key rest (key a :: seen) := by
        simp only [dedupByKey]; rw [if_neg hain]
      rw [h1]
      by_cases hka : key a = k
      · have h0 : (dedupByKey key rest (key a :: seen)).countP
            (fun x => key x = k) = 0 :=
          dedupByKey_countP_of_mem_seen key k rest _ (by simp [hka])
        rw [List.countP_cons, h0, List.countP_cons]
        simp [hka]
      · have hk2 : k ∉ key a :: seen := by
          intro h
          rcases List.mem_cons.mp h with h | h
          · exact hka h.symm
          · exact hk h
        rw [List.countP_cons, ih _ hk2, List.countP_cons]
        simp [hka]

/-- Dedup keeps the *first* occurrence of every key. -/
theorem dedupByKey_find? {α κ : Type} [DecidableEq κ] (key : α → κ) (k : κ) :
    ∀ (l : List α) (seen : List κ), k ∉ seen →
      (dedupByKey key l seen).find? (fun a => key a = k) =
        l.find? (fun a => key a = k) := by
  intro l
  induction l with
  | nil => intro seen _; rfl
  | cons a rest ih =>
    intro seen hk
    by_cases hain : key a ∈ seen
    · have h1 : dedupByKey key (a :: rest) seen = dedupByKey key rest seen := by
        simp only [dedupByKey]; rw [if_pos hain]
      have hka : ¬(key a = k) := fun h => hk (h ▸ hain)
      rw [h1, ih seen hk]
      exact (List.find?_cons_of_neg _ (by simp [hka])).symm
    · have h1 : dedupByKey key (a :: rest) seen =
          a :: dedupByKey key rest (key a :: seen) := by
        simp only [dedupByKey]; rw [if_neg hain]
      rw [h1]
      by_cases hka : key a = k
      · rw [List.find?_cons_of_pos _ (by simp [hka]),
          List.find?_cons_of_pos _ (by simp [hka])]
      · have hk2 : k ∉ key a :: seen := by
          intro h
          rcases List.mem_cons.mp h with h | h
          · exact hka h.symm
          · exact hk h
        rw [List.find?_cons_of_neg _ (by simp [hka]),
          List.find?_cons_of_neg _ (by simp [hka]), ih _ hk2]

/-- Every entry a feature's geometry contributes is in the raw entry list. -/
theorem mem_rawVertexEntries (angleOf : ℚ → ℚ → ℚ) (collection : FeatureCollection)
    (f : Feature) (g : Geometry) (e : VertEntry)
    (hf : f ∈ collection.features) (hg : f.geometry = some g)
    (he : e ∈ collectVertexEntriesFromGeometry angleOf g) :
    e ∈ rawVertexEntries angleOf collection := by
  unfold rawVertexEntries
  revert hf
  generalize collection.features = l
  intro hf
  induction l with
  | nil => exact absurd hf (List.not_mem_nil f)
  | cons x xs ih =>
    rw [List.foldr_cons]
    rcases List.mem_cons.mp hf with h | h
    · subst h
      rw [hg]
      exact List.mem_append_left _ he
    · exact List.mem_append_right _ (ih h)

/-- The first ring vertex yields an entry positioned at that vertex. -/
theorem mem_ringVertexEntries_head (angleOf : ℚ → ℚ → ℚ) (ring : List Coord)
    (c0 : Coord) (h : ring.head? = some c0) :
    ∃ e ∈ ringVertexEntries angleOf ring, e.coord = c0 := by
  cases ring with
  | nil => simp at h
  | cons x xs =>
    have hx : x = c0 := by simpa using h
    subst hx
    refine ⟨_, List.mem_map.mpr ⟨(0, x), ?_, rfl⟩, rfl⟩
    rw [List.enum_cons]
    exact List.mem_cons_self _ _

/-- C5: for a Polygon feature whose outer ring repeats the closing vertex
(first coordinate equals last coordinate), the vertex sampler emits exactly
one Vertex Entry for that coordinate, not two; in general, entries are keyed
by their coordinates rounded to 6 decimal digits (`vertKey`) and the first
occurrence wins. -/
theorem claim5_vertex_dedup (angleOf : ℚ → ℚ → ℚ) (collection : FeatureCollection)
    (f : Feature) (ring : List Coord) (rest : List (List Coord)) (c0 : Coord)
    (hf : f ∈ collection.features)
    (hg : f.geometry = some (Geometry.polygon (ring :: rest)))
    (hhead : ring.head? = some c0) (hlast : ring.getLast? = some c0) :
    ((extractVertexEntriesFromFeatureCollection angleOf collection).countP
        (fun e => vertKey e.coord = vertKey c0) = 1) ∧
    (∀ k : String,
      (extractVertexEntriesFromFeatureCollection angleOf collection).find?
          (fun e => vertKey e.coord = k) =
        (rawVertexEntries angleOf collection).find?
          (fun e => vertKey e.coord = k)) := by
  constructor
  · unfold extractVertexEntriesFromFeatureCollection
    rw [dedupByKey_countP _ _ _ _ (List.not_mem_nil _)]
    rcases mem_ringVertexEntries_head angleOf ring c0 hhead with ⟨e0, he0, hc⟩
    have hec : e0 ∈ collectVertexEntriesFromGeometry angleOf
        (Geometry.polygon (ring :: rest)) := by
      simpa [collectVertexEntriesFromGeometry] using he0
    have hmem := mem_rawVertexEntries angleOf collection f _ e0 hf hg hec
    have hpos : 0 < (rawVertexEntries angleOf collection).countP
        (fun e => vertKey e.coord = vertKey c0) :=
      List.countP_pos_iff.mpr ⟨e0, hmem, by simp [hc]⟩
    rw [if_neg (Nat.pos_iff_ne_zero.mp hpos)]
  · intro k
    exact dedupByKey_find? _ k _ _ (List.not_mem_nil _)

/-- C5 witness: the polygon of `sampleFeature` closes its ring at `(0,0)` and
the sampler emits exactly one entry keyed at that coordinate. -/
theorem claim5_vertex_dedup_witness :
    sampleFeature ∈ sampleCollection.features ∧
    sampleFeature.geometry =
      some (Geometry.polygon [[(0, 0), (0, 1), (1, 1), (0, 0)]]) ∧
    ([(0, 0), (0, 1), (1, 1), (0, 0)] : List Coord).head? = some (0, 0) ∧
    ([(0, 0), (0, 1), (1, 1), (0, 0)] : List Coord).getLast? = some (0, 0) ∧
    ((extractVertexEntriesFromFeatureCollection (fun _ _ => 0) sampleCollection).countP
        (fun e => vertKey e.coord = vertKey ((0 : ℚ), (0 : ℚ))) = 1) ∧
    ((extractVertexEntriesFromFeatureCollection (fun _ _ => 0) sampleCollection).find?
        (fun e => vertKey e.coord = vertKey ((0 : ℚ), (0 : ℚ))) =
      (rawVertexEntries (fun _ _ => 0) sampleCollection).find?
        (fun e => vertKey e.coord = vertKey ((0 : ℚ), (0 : ℚ)))) :=
  ⟨by simp [sampleCollection], rfl, rfl, rfl,
    (claim5_vertex_dedup (fun _ _ => 0) sampleCollection sampleFeature
      [(0, 0), (0, 1), (1, 1), (0, 0)] [] ((0 : ℚ), (0 : ℚ))
      (by simp [sampleCollection]) rfl rfl rfl).1,
    (claim5_vertex_dedup (fun _ _ => 0) sampleCollection sampleFeature
      [(0, 0), (0, 1), (1, 1), (0, 0)] [] ((0 : ℚ), (0 : ℚ))
      (by simp [sampleCollection]) rfl rfl rfl).2 (vertKey ((0 : ℚ), (0 : ℚ)))⟩
